import Mathlib

/-!
Verification development for the transcript-analysis query orchestration engine.

The definitions below are a shallow embedding of the canonical bounded-concurrency
variant of the orchestration code (the `useOpenAI` hook: `processData` and its
helpers `sanitizeString`, `isColumnExtractionQuery`, `extractColumnName`,
`tryDirectColumnExtraction`, `formatConversationTextOptimized`, `callOpenAIAPI`,
`handleQueryError`).

Modelling conventions:
* JavaScript strings are modelled as Lean `String` (sequences of Unicode scalar
  values).  The only divergence is that an astral-plane character counts as two
  UTF-16 code units in JavaScript; since `sanitizeString` replaces every
  character above U+00FF with a space before any length-sensitive operation is
  applied to service-bound text, this does not change any of the properties
  proved here.
* JavaScript objects used as string-keyed dictionaries are modelled as ordered
  association lists.  `Object.keys` enumerates integer-like keys (canonical
  array indices) in ascending numeric order first and all remaining keys in
  insertion order; `jsKeyOrder` reproduces this.  Prototype-chain lookups
  (e.g. a session id literally spelled "toString") are outside the model: the
  dictionaries are treated as clean maps.
* The single-threaded cooperative concurrency of the JavaScript event loop is
  modelled as a small-step interpreter: each per-query task is a state machine
  whose atomic segments are the code regions between `await` points, and an
  oracle (a list of `Directive`s) chooses the interleaving, the passage of
  time (`Date.now`), and the outcome of each remote completion call.
* When the session-group lookup misses (the sanitized session id differs from
  every raw id), the session messages are `undefined` in JavaScript and the
  first access throws a TypeError that the per-query catch block converts to an
  error placeholder.  The host-defined TypeError wording is abstracted by the
  constant `undefinedMessagesError`.
-/

/-! ## String helpers shared by the embedding -/

/-- Character-list containment of `sub` at the head of `l`. -/
def leadsWith : List Char → List Char → Bool
  | [], _ => true
  | _ :: _, [] => false
  | a :: as, b :: bs => a == b && leadsWith as bs

/-- Character-list substring containment (the semantics of JS `String.includes`). -/
def containsChars (sub : List Char) : List Char → Bool
  | [] => sub.isEmpty
  | b :: bs => leadsWith sub (b :: bs) || containsChars sub bs

/-- JS `s.includes(sub)`. -/
def strIncludes (s sub : String) : Bool := containsChars sub.data s.data

/-- The control characters removed by `sanitizeString`
(`[\x00-\x08\x0B\x0C\x0E-\x1F]`). -/
def isRemovedControl (c : Char) : Bool :=
  c.toNat ≤ 0x08 || c.toNat == 0x0B || c.toNat == 0x0C ||
  (0x0E ≤ c.toNat && c.toNat ≤ 0x1F)

/-- First sanitization pass: replace characters outside the ISO-8859-1 range
(`[^\x00-\xFF]`) with a space. -/
def toByteRange (c : Char) : Char := if 0xFF < c.toNat then ' ' else c

/-- `sanitizeString` on character lists: substitute a space for characters above
U+00FF, then drop the control characters. -/
def sanitizeChars (cs : List Char) : List Char :=
  (cs.map toByteRange).filter (fun c => !isRemovedControl c)

/-- Embedding of `sanitizeString` (the `if (!str) return ''` guard coincides
with the pipeline on the empty string). -/
def sanitizeString (s : String) : String := String.mk (sanitizeChars s.data)

/-- The whitespace set of JS `String.prototype.trim`. -/
def isJsWhitespace (c : Char) : Bool :=
  let n := c.toNat
  (0x09 ≤ n && n ≤ 0x0D) || n == 0x20 || n == 0xA0 || n == 0x1680 ||
  (0x2000 ≤ n && n ≤ 0x200A) || n == 0x2028 || n == 0x2029 || n == 0x202F ||
  n == 0x205F || n == 0x3000 || n == 0xFEFF

/-- JS `s.trim()`. -/
def jsTrim (s : String) : String :=
  String.mk (((s.data.dropWhile isJsWhitespace).reverse.dropWhile isJsWhitespace).reverse)

/-- JS `s.substring(0, n)` (on text whose characters are single UTF-16 units). -/
def jsTake (n : Nat) (s : String) : String := String.mk (s.data.take n)

/-- JS `s.toLowerCase()` restricted to ASCII case mapping (all the phrases
compared by the resolver are ASCII). -/
def jsToLower (s : String) : String := String.mk (s.data.map Char.toLower)

/-! ## JS object-as-dictionary model -/

/-- Numeric value of a digit string. -/
def strNatVal (s : String) : Nat :=
  s.data.foldl (fun a c => a * 10 + (c.toNat - 48)) 0

/-- A canonical array-index key: nonempty, all digits, no leading zero (except
"0" itself), numerically below 2^32 - 1. -/
def isArrayIndexKey (s : String) : Bool :=
  !s.data.isEmpty && s.data.all Char.isDigit &&
  (s == "0" || s.data.headD '0' != '0') && strNatVal s < 4294967295

/-- Insert into a list sorted ascending by `strNatVal`. -/
def insertAscBy : String → List String → List String
  | x, [] => [x]
  | x, y :: ys => if strNatVal x ≤ strNatVal y then x :: y :: ys else y :: insertAscBy x ys

/-- Sort ascending by `strNatVal`. -/
def sortAscBy (l : List String) : List String := l.foldr insertAscBy []

/-- `Object.keys` enumeration order for a dictionary whose keys were inserted
in the order `l`: canonical array indices ascending first, then the remaining
keys in insertion order. -/
def jsKeyOrder (l : List String) : List String :=
  sortAscBy (l.filter isArrayIndexKey) ++ l.filter (fun s => !isArrayIndexKey s)

/-! ## Data model -/

/-- A chat message row: the five required fields plus the open extra columns
discovered at ingestion (in their object insertion order). -/
structure ChatMessage where
  messageType : String
  messageContent : String
  sessionId : String
  messageDate : String
  participantIdentifier : String
  openFields : List (String × String) := []
deriving Repr, DecidableEq

/-- A query row. -/
structure Query where
  queryName : String
  queryDescription : String
  outputFormat : Option String := none
deriving Repr, DecidableEq

/-- The insertion order of a message object's keys (required fields first, as
created by the ingestion code, then the extra columns). -/
def ChatMessage.rawKeys (m : ChatMessage) : List String :=
  ["messageType", "messageContent", "sessionId", "messageDate", "participantIdentifier"] ++
    m.openFields.map Prod.fst

/-- `Object.keys(message)`. -/
def ChatMessage.keys (m : ChatMessage) : List String := jsKeyOrder m.rawKeys

/-- Dynamic property read `message[k]`; `none` models `undefined`. -/
def ChatMessage.get (m : ChatMessage) (k : String) : Option String :=
  if k == "messageType" then some m.messageType
  else if k == "messageContent" then some m.messageContent
  else if k == "sessionId" then some m.sessionId
  else if k == "messageDate" then some m.messageDate
  else if k == "participantIdentifier" then some m.participantIdentifier
  else (m.openFields.find? (fun p => p.1 == k)).map Prod.snd

/-- A result row: an ordered string-keyed record
(`sessionId`, `"Start date"`, then one entry per resolved query). -/
abbrev SessionResult := List (String × String)

/-- Record read `r[k]`. -/
def jsGet : SessionResult → String → Option String
  | [], _ => none
  | p :: r, k => if p.1 == k then some p.2 else jsGet r k

/-- Record write `r[k] = v`: overwrite in place, else append. -/
def jsSet : SessionResult → String → String → SessionResult
  | [], k, v => [(k, v)]
  | p :: r, k, v => if p.1 == k then (k, v) :: r else p :: jsSet r k v

/-! ## Session Grouper -/

/-- The distinct session ids in first-seen order (the insertion order of the
keys of `sessionGroups`). -/
def firstSeenIds (chatData : List ChatMessage) : List String :=
  chatData.foldl
    (fun acc m => if acc.contains m.sessionId then acc else acc ++ [m.sessionId]) []

/-- `sessionGroups[sid]`: the messages of one session in arrival order. -/
def sessionMessagesFor (chatData : List ChatMessage) (sid : String) : List ChatMessage :=
  chatData.filter (fun m => m.sessionId == sid)

/-- `dates.length > 0 ? dates[0] : ''`. -/
def startDateOf (msgs : List ChatMessage) : String :=
  ((msgs.map ChatMessage.messageDate).headD "")

/-- The group lookup performed by the scheduler loop (it uses the sanitized id
as the key; a miss is JS `undefined`). -/
def groupLookup (chatData : List ChatMessage) (sid : String) : Option (List ChatMessage) :=
  if (firstSeenIds chatData).contains sid then some (sessionMessagesFor chatData sid) else none

/-! ## Direct-Extraction Resolver -/

/-- Embedding of `isColumnExtractionQuery`. -/
def isColumnExtractionQuery (q : Query) : Bool :=
  let description := jsToLower q.queryDescription
  let name := jsToLower q.queryName
  strIncludes description "extract column" ||
  strIncludes description "get column" ||
  strIncludes description "pull column" ||
  strIncludes name "participant identifier" ||
  strIncludes description "participant identifier"

/-- A quote character of the regex `/['"]([^'"]+)['"]/`. -/
def isQuoteChar (c : Char) : Bool := c == '\'' || c == '"'

/-- Content of the first (leftmost) match of `/['"]([^'"]+)['"]/`. -/
def firstQuotedContent : List Char → Option (List Char)
  | [] => none
  | c :: rest =>
    if isQuoteChar c then
      let content := rest.takeWhile (fun d => !isQuoteChar d)
      match rest.drop content.length with
      | _ :: _ => if content.isEmpty then firstQuotedContent rest else some content
      | [] => none
    else firstQuotedContent rest

/-- Embedding of `extractColumnName` (including the early return on an empty
description). -/
def extractColumnName (q : Query) : String :=
  if q.queryDescription == "" then ""
  else
    match firstQuotedContent q.queryDescription.data with
    | some cs => jsToLower (String.mk cs)
    | none =>
      if strIncludes (jsToLower q.queryName) "participant identifier" ||
         strIncludes (jsToLower q.queryDescription) "participant identifier" then
        "participant identifier"
      else ""

/-- JS truthy-and-non-blank test `v && v.trim() !== ''` on an optional field
value (`undefined` is falsy). -/
def nonBlankVal (v : Option String) : Bool :=
  match v with
  | none => false
  | some s => s != "" && jsTrim s != ""

/-- First message value (in order) of a field that is non-blank; used both by
the embedding and, with the spec's wording, by the refinement statements. -/
def firstNonBlank (getF : ChatMessage → Option String) (messages : List ChatMessage) :
    Option String :=
  (messages.find? (fun m => nonBlankVal (getF m))).map (fun m => (getF m).getD "")

/-- Embedding of `tryDirectColumnExtraction`: `some v` models returning `true`
after writing `v`, `none` models returning `false`. -/
def tryDirectColumnExtraction (columnName : String) (messages : List ChatMessage) :
    Option String :=
  match messages with
  | [] => none
  | firstMessage :: _ =>
    let direct : Option String :=
      match (firstMessage.keys).find? (fun k => jsToLower k == jsToLower columnName) with
      | some k =>
        if k != "" then
          match firstNonBlank (fun m => m.get k) messages with
          | some v => some (sanitizeString v)
          | none => none
        else none
      | none => none
    match direct with
    | some v => some v
    | none =>
      if columnName == "participant identifier" then
        match firstNonBlank (fun m => some m.participantIdentifier) messages with
        | some v => some (sanitizeString v)
        | none => none
      else none

/-! ## Completion Client -/

/-- One formatted transcript line of `formatConversationTextOptimized`. -/
def formatMessageLine (msg : ChatMessage) : String :=
  "messageType: " ++ sanitizeString msg.messageType ++ ", " ++
  "messageContent: " ++ jsTake 200 (sanitizeString msg.messageContent) ++ ", " ++
  "participantIdentifier: " ++ sanitizeString msg.participantIdentifier ++ ", " ++
  "messageDate: " ++ sanitizeString msg.messageDate

/-- Embedding of `formatConversationTextOptimized`. -/
def formatConversationTextOptimized (messages : List ChatMessage) : String :=
  String.intercalate "\n" ((messages.take 30).map formatMessageLine)

/-- The whole-transcript truncation performed by `callOpenAIAPI`. -/
def truncatedTranscript (conversationText : String) : String :=
  if 8000 < conversationText.data.length then
    jsTake 8000 conversationText ++ "... (conversation truncated for performance)"
  else conversationText

/-- The user prompt of the request payload. -/
def userMessageContent (sessionId : String) (q : Query) (conversationText : String) : String :=
  "Based on the following chat transcript for session ID \"" ++ sanitizeString sessionId ++
  "\", answer the query \"" ++ sanitizeString q.queryDescription ++ "\":\n\n" ++
  truncatedTranscript conversationText

/-- The outcome of one `fetch` of the completion endpoint, decided by the
environment. -/
inductive ApiOutcome where
  | ok (content : String)
  | httpError (status : Nat) (bodyMessage : Option String)
  | transportError (message : String)
deriving Repr, DecidableEq

/-- Failure classification and response handling of `callOpenAIAPI`:
`Except.error` models a thrown `Error` carrying the given message. -/
def callOpenAIAPI (outcome : ApiOutcome) : Except String String :=
  match outcome with
  | .ok content => .ok (sanitizeString (jsTrim content))
  | .httpError status bodyMessage =>
    let errorMessage :=
      match bodyMessage with
      | some m => if m == "" then "API call failed: " ++ toString status else m
      | none => "API call failed: " ++ toString status
    if status == 429 then
      .error ("OpenAI API rate limit exceeded: " ++ sanitizeString errorMessage)
    else if status == 503 || status == 504 then
      .error ("OpenAI API service unavailable: " ++ sanitizeString errorMessage)
    else
      .error (sanitizeString errorMessage)
  | .transportError message => .error message

/-- Embedding of `handleQueryError`: the placeholder string stored for a failed
query (every throw site in this code produces an `Error`, so the
`Unknown error` fallback for non-`Error` throwables is unreachable). -/
def handleQueryError (message : String) : String :=
  if strIncludes message "rate limit" then "API rate limit exceeded"
  else if strIncludes message "service unavailable" then "API service unavailable"
  else "Error: " ++ sanitizeString (jsTake 50 message)

/-- Abstract host TypeError message raised on the first access to `undefined`
session messages (the exact wording is engine-defined and never inspected). -/
def undefinedMessagesError : String := "Cannot read properties of undefined"

/-! ## Dispatch Scheduler

The per-query task body of `processData` is cut into its atomic segments (the
code regions between `await` points) and driven by an oracle. -/

/-- Scheduler constants of the canonical variant. -/
def maxConcurrentRequests : Nat := 3

/-- Queue admission wait bound (ms). -/
def maxQueueWaitTime : Nat := 10000

/-- Base pacing delay (ms). -/
def baseDelayMs : Nat := 800

/-- The suspension state of one per-query task. -/
inductive TaskPhase where
  | polling (queueStart : Nat)
  | pollSleeping (queueStart : Nat) (wake : Nat)
  | pacingSleep (wake : Nat)
  | cooldownSleep (wake : Nat)
  | inFlight
  | rateLimitSleep (wake : Nat)
  | finished (skipped : Bool)
deriving Repr, DecidableEq

/-- The mutable state of one session's processing round: the event-loop clock,
the two shared counters, a running maximum of the in-flight counter, the
session's result record, the task states, and instrumentation (dispatched
remote calls and timed-out skips, by query index). -/
structure SessState where
  clock : Nat
  activeRequests : Nat
  consecutive : Nat
  maxActive : Nat
  result : SessionResult
  tasks : List TaskPhase
  calls : List Nat
  skips : List Nat
deriving Repr, DecidableEq

/-- One oracle step: let time pass, or resume a suspended task (the outcome is
consulted only when the task is awaiting its fetch). -/
inductive Directive where
  | advance (dt : Nat)
  | resume (i : Nat) (outcome : ApiOutcome)
deriving Repr, DecidableEq

/-- The synchronous tail of the task body once a concurrency slot has been
acquired: the direct-extraction attempt, and on a miss the computation of the
adaptive pacing delay (a `TypeError` on `undefined` messages is caught and
recorded by `handleQueryError`; the `finally` block releases the slot on every
completed path). -/
def runAcquiredBody (q : Query) (msgsOpt : Option (List ChatMessage)) (st : SessState)
    (i : Nat) : SessState :=
  match msgsOpt with
  | none =>
    { st with
      result := jsSet st.result q.queryName (handleQueryError undefinedMessagesError),
      activeRequests := st.activeRequests - 1,
      tasks := st.tasks.set i (.finished false) }
  | some msgs =>
    let direct : Option String :=
      if isColumnExtractionQuery q then
        let columnName := extractColumnName q
        if columnName != "" then tryDirectColumnExtraction columnName msgs else none
      else none
    match direct with
    | some v =>
      { st with
        result := jsSet st.result q.queryName v,
        activeRequests := st.activeRequests - 1,
        tasks := st.tasks.set i (.finished false) }
    | none =>
      { st with
        tasks := st.tasks.set i (.pacingSleep (st.clock + baseDelayMs * min st.consecutive 3)) }

/-- One evaluation of the admission while-loop condition: if the pool is full,
give up after the bounded wait window (recording nothing in the result) or poll
again after 100ms; otherwise acquire a slot and run the synchronous tail. -/
def runPollCheck (q : Query) (msgsOpt : Option (List ChatMessage)) (st : SessState)
    (i : Nat) (queueStart : Nat) : SessState :=
  if maxConcurrentRequests ≤ st.activeRequests then
    if maxQueueWaitTime < st.clock - queueStart then
      { st with tasks := st.tasks.set i (.finished true), skips := st.skips ++ [i] }
    else
      { st with tasks := st.tasks.set i (.pollSleeping queueStart (st.clock + 100)) }
  else
    runAcquiredBody q msgsOpt
      { st with
        activeRequests := st.activeRequests + 1,
        maxActive := max st.maxActive (st.activeRequests + 1) } i

/-- Segment after the pacing delay: bump the consecutive-call counter, insert
the long cooldown once it passes 5, otherwise dispatch the remote call. -/
def runPacingDone (st : SessState) (i : Nat) : SessState :=
  let c := st.consecutive + 1
  if 5 < c then
    { st with consecutive := c, tasks := st.tasks.set i (.cooldownSleep (st.clock + 1500)) }
  else
    { st with consecutive := c, calls := st.calls ++ [i], tasks := st.tasks.set i .inFlight }

/-- Segment after the mandatory cooldown: reset the counter and dispatch. -/
def runCooldownDone (st : SessState) (i : Nat) : SessState :=
  { st with consecutive := 0, calls := st.calls ++ [i], tasks := st.tasks.set i .inFlight }

/-- Segment at which the fetch settles: store the answer or the classified
placeholder; a message carrying "rate limit" defers the slot release past an
extra 6000ms cooldown, every other path releases at once. -/
def runResponse (q : Query) (st : SessState) (i : Nat) (o : ApiOutcome) : SessState :=
  match callOpenAIAPI o with
  | .ok answer =>
    { st with
      result := jsSet st.result q.queryName answer,
      activeRequests := st.activeRequests - 1,
      tasks := st.tasks.set i (.finished false) }
  | .error msg =>
    if strIncludes msg "rate limit" then
      { st with
        result := jsSet st.result q.queryName (handleQueryError msg),
        tasks := st.tasks.set i (.rateLimitSleep (st.clock + 6000)) }
    else
      { st with
        result := jsSet st.result q.queryName (handleQueryError msg),
        activeRequests := st.activeRequests - 1,
        tasks := st.tasks.set i (.finished false) }

/-- Segment after the rate-limit cooldown: reset the counter, release the slot. -/
def runRateLimitDone (st : SessState) (i : Nat) : SessState :=
  { st with
    consecutive := 0,
    activeRequests := st.activeRequests - 1,
    tasks := st.tasks.set i (.finished false) }

/-- The small-step interpreter: a directive either advances the clock or resumes
one task, which then executes exactly one atomic segment (a sleeping task whose
wake time has not been reached yet is not resumable). -/
def stepDirective (queryData : List Query) (msgsOpt : Option (List ChatMessage))
    (st : SessState) (d : Directive) : SessState :=
  match d with
  | .advance dt => { st with clock := st.clock + dt }
  | .resume i o =>
    match st.tasks[i]?, queryData[i]? with
    | some ph, some q =>
      match ph with
      | .polling qs => runPollCheck q msgsOpt st i qs
      | .pollSleeping qs wake => if wake ≤ st.clock then runPollCheck q msgsOpt st i qs else st
      | .pacingSleep wake => if wake ≤ st.clock then runPacingDone st i else st
      | .cooldownSleep wake => if wake ≤ st.clock then runCooldownDone st i else st
      | .inFlight => runResponse q st i o
      | .rateLimitSleep wake => if wake ≤ st.clock then runRateLimitDone st i else st
      | .finished _ => st
    | _, _ => st

/-- The global state threaded between sessions (the two counters persist; every
session's tasks have drained when the loop advances). -/
structure GlobalSt where
  clock : Nat
  activeRequests : Nat
  consecutive : Nat
  maxActive : Nat
deriving Repr, DecidableEq

/-- All tasks of the session have settled (`Promise.all` has resolved). -/
def sessionComplete (st : SessState) : Bool :=
  st.tasks.all (fun ph => match ph with | .finished _ => true | _ => false)

/-- The directives that model the synchronous start of every task at promise
creation (each async body runs to its first suspension, in query order). -/
def spawnDirectives (n : Nat) : List Directive :=
  (List.range n).map (fun i => Directive.resume i (.ok ""))

/-- Run one session: spawn all query tasks synchronously, then follow the
oracle's interleaving. -/
def runSession (queryData : List Query) (msgsOpt : Option (List ChatMessage))
    (record : SessionResult) (g : GlobalSt) (ds : List Directive) : SessState :=
  let st0 : SessState :=
    { clock := g.clock, activeRequests := g.activeRequests, consecutive := g.consecutive,
      maxActive := g.maxActive, result := record,
      tasks := List.replicate queryData.length (.polling g.clock), calls := [], skips := [] }
  (spawnDirectives queryData.length ++ ds).foldl (stepDirective queryData msgsOpt) st0

/-- Global view of a finished session round. -/
def globOf (st : SessState) : GlobalSt :=
  { clock := st.clock, activeRequests := st.activeRequests, consecutive := st.consecutive,
    maxActive := st.maxActive }

/-- The base record created for a session before its queries run. -/
def baseRecord (chatData : List ChatMessage) (sid : String) : SessionResult :=
  [("sessionId", sanitizeString sid),
   ("Start date", sanitizeString (startDateOf (sessionMessagesFor chatData sid)))]

/-- The session loop of `processData`: sessions are processed strictly in the
order of `ids`; a session whose promises never all settle stalls the loop (the
run then never returns). -/
def runSessionsAux (chatData : List ChatMessage) (queryData : List Query) :
    List String → List (List Directive) → GlobalSt → List SessState × Bool
  | [], _, _ => ([], true)
  | sid :: rest, oracle, g =>
    let msgsOpt := groupLookup chatData (sanitizeString sid)
    let fin := runSession queryData msgsOpt (baseRecord chatData sid) g (oracle.headD [])
    if sessionComplete fin then
      let tail := runSessionsAux chatData queryData rest oracle.tail (globOf fin)
      (fin :: tail.1, tail.2)
    else
      ([fin], false)

/-- The observable outcome of one run of `processData`: the returned list (or
`none` when the inputs are rejected or the run stalls), the per-session final
states (instrumentation), and whether every session drained. -/
structure RunOutcome where
  results : Option (List SessionResult)
  sessions : List SessState
  completed : Bool
deriving Repr, DecidableEq

/-- Embedding of `processData`: reject empty inputs or a missing credential,
group the messages, seed a record per session, then drive every session's
queries under the concurrency/pacing rules. -/
def processData (chatData : List ChatMessage) (queryData : List Query) (apiKey : String)
    (oracle : List (List Directive)) : RunOutcome :=
  if chatData.isEmpty || queryData.isEmpty || apiKey == "" then
    { results := none, sessions := [], completed := true }
  else
    let ids := jsKeyOrder (firstSeenIds chatData)
    let r := runSessionsAux chatData queryData ids oracle
      { clock := 0, activeRequests := 0, consecutive := 0, maxActive := 0 }
    { results := if r.2 then some (r.1.map SessState.result) else none,
      sessions := r.1, completed := r.2 }

/-! ## Auxiliary definitions used by the statements -/

/-- A message whose content is replaced by the first 200 characters of its
sanitized content (the per-message bound the payload claim is about). -/
def truncContent (m : ChatMessage) : ChatMessage :=
  { m with messageContent := jsTake 200 (sanitizeString m.messageContent) }

/-- The query-name column list of a run. -/
def queryNames (queryData : List Query) : List String := queryData.map Query.queryName

/-- A throwaway state used only to totalize positional lookups in closed
statements. -/
def dummySessState : SessState :=
  { clock := 0, activeRequests := 0, consecutive := 0, maxActive := 0,
    result := [], tasks := [], calls := [], skips := [] }

/-- Counterexample data: two 201-character message contents that agree on their
first 200 characters and differ only beyond them. -/
def cexContentA : String := String.mk (List.replicate 200 (Char.ofNat 1) ++ ['X'])

/-- Second content of the pair, differing only at position 201. -/
def cexContentB : String := String.mk (List.replicate 200 (Char.ofNat 1) ++ ['Y'])

/-- Message carrying `cexContentA`. -/
def cexMsgA : ChatMessage :=
  { messageType := "t", messageContent := cexContentA, sessionId := "s",
    messageDate := "2024-01-01", participantIdentifier := "p" }

/-- Message carrying `cexContentB`. -/
def cexMsgB : ChatMessage :=
  { messageType := "t", messageContent := cexContentB, sessionId := "s",
    messageDate := "2024-01-01", participantIdentifier := "p" }

/-- A plain (non-extraction) query used by the concrete runs. -/
def cexQuery : Query :=
  { queryName := "Summary", queryDescription := "Summarize the call" }

/-- Query `i` of the run has a value stored under its query name in the
record. -/
def recordedAt (queryData : List Query) (r : SessionResult) (i : Nat) : Prop :=
  ∀ q, queryData[i]? = some q → (jsGet r q.queryName).isSome

/-- The completeness invariant of one session round: tasks that settled without
being skipped (and tasks parked in the rate-limit cooldown, whose placeholder
is already stored) have a value recorded, and timed-out tasks are listed in
`skips`. -/
def keyInvariant (queryData : List Query) (st : SessState) : Prop :=
  st.tasks.length = queryData.length ∧
  ∀ i, (st.tasks[i]? = some (.finished false) → recordedAt queryData st.result i) ∧
    (∀ w, st.tasks[i]? = some (.rateLimitSleep w) → recordedAt queryData st.result i) ∧
    (st.tasks[i]? = some (.finished true) → i ∈ st.skips)

/-- The Direct-Extraction Resolver matches for this (query, messages) pair. -/
def directHit (q : Query) (msgs : List ChatMessage) : Bool :=
  isColumnExtractionQuery q && extractColumnName q != "" &&
    (tryDirectColumnExtraction (extractColumnName q) msgs).isSome

/-- Invariant of the direct-extraction task `i0` (whose resolver hit yields
`v0`): it never dispatches a remote call (never enters the pacing, cooldown,
in-flight or rate-limit phases and is never listed in `calls`), and once
settled unskipped its stored answer is `v0`. -/
def directOnlyInv (q0 : Query) (i0 : Nat) (v0 : String) (st : SessState) : Prop :=
  i0 ∉ st.calls ∧
  (∀ w, st.tasks[i0]? ≠ some (.pacingSleep w)) ∧
  (∀ w, st.tasks[i0]? ≠ some (.cooldownSleep w)) ∧
  st.tasks[i0]? ≠ some .inFlight ∧
  (∀ w, st.tasks[i0]? ≠ some (.rateLimitSleep w)) ∧
  (st.tasks[i0]? = some (.finished true) → i0 ∈ st.skips) ∧
  (st.tasks[i0]? = some (.finished false) → jsGet st.result q0.queryName = some v0)

/-! ### Concrete data for the run-level witnesses and counterexamples -/

/-- Four plain queries for the admission-timeout scenario. -/
def c1Queries : List Query :=
  [{ queryName := "Q1", queryDescription := "what happened" },
   { queryName := "Q2", queryDescription := "what was agreed" },
   { queryName := "Q3", queryDescription := "who spoke" },
   { queryName := "Q4", queryDescription := "final outcome" }]

/-- One message, one session, for the admission-timeout scenario. -/
def c1Msg : ChatMessage :=
  { messageType := "user", messageContent := "hi", sessionId := "sess",
    messageDate := "2024-01-01", participantIdentifier := "p" }

/-- Oracle for the admission-timeout scenario: three tasks occupy all slots,
the clock passes the 10s window, the fourth task polls and is skipped, then the
three in-flight calls settle. -/
def c1Oracle : List (List Directive) :=
  [[.resume 0 (.ok ""), .resume 1 (.ok ""), .resume 2 (.ok ""),
    .advance 10101, .resume 3 (.ok ""),
    .resume 0 (.ok "A"), .resume 1 (.ok "B"), .resume 2 (.ok "C")]]

/-- Messages with canonical array-index session ids, seen in the order
"2" then "1". -/
def c4Messages : List ChatMessage :=
  [{ messageType := "t", messageContent := "x", sessionId := "2",
     messageDate := "d2", participantIdentifier := "p" },
   { messageType := "t", messageContent := "y", sessionId := "1",
     messageDate := "d1", participantIdentifier := "p" }]

/-- Oracle completing one plain query for each of two sessions (each round
first lets enough time pass for the adaptive pacing delay). -/
def twoSessionOracle : List (List Directive) :=
  [[.advance 20000, .resume 0 (.ok ""), .resume 0 (.ok "A")],
   [.advance 20000, .resume 0 (.ok ""), .resume 0 (.ok "A")]]

/-- Oracle completing one plain query for a single session. -/
def oneSessionOracle : List (List Directive) :=
  [[.resume 0 (.ok ""), .resume 0 (.ok "A")]]

/-- Two messages whose raw session ids are distinct but sanitize to the same
string. -/
def c5Messages : List ChatMessage :=
  [{ messageType := "t", messageContent := "x", sessionId := "a",
     messageDate := "d1", participantIdentifier := "p" },
   { messageType := "t", messageContent := "y", sessionId := "a\x01",
     messageDate := "d2", participantIdentifier := "p" }]

/-- A message whose date carries a control character removed by sanitization. -/
def c8Msg : ChatMessage :=
  { messageType := "t", messageContent := "x", sessionId := "s",
    messageDate := "2024\x0B-01", participantIdentifier := "p" }

/-- Extraction query against the open column "code". -/
def c3Query : Query :=
  { queryName := "Code", queryDescription := "extract column \"code\"" }

/-- Message whose "code" column value contains a control character. -/
def c3Msg : ChatMessage :=
  { messageType := "t", messageContent := "x", sessionId := "s",
    messageDate := "d", participantIdentifier := "p",
    openFields := [("code", "x\x01y")] }

/-- Two sessions whose raw ids sanitize to the same string, with different
"code" column values: the loop's group lookup by sanitized id hands the second
session the first session's messages. -/
def c3CollideMsgs : List ChatMessage :=
  [{ messageType := "t", messageContent := "x", sessionId := "a",
     messageDate := "d1", participantIdentifier := "p",
     openFields := [("code", "w")] },
   { messageType := "t", messageContent := "y", sessionId := "a\x01",
     messageDate := "d2", participantIdentifier := "p",
     openFields := [("code", "v")] }]

/-- Message with a clean "code" column value, for the witness run. -/
def c3CleanMsg : ChatMessage :=
  { messageType := "t", messageContent := "x", sessionId := "s",
    messageDate := "d", participantIdentifier := "p",
    openFields := [("code", "ab12")] }

/-- Extraction query for the "participant identifier" column. -/
def c6Query : Query :=
  { queryName := "Participant", queryDescription := "extract column \"participant identifier\"" }

/-- Message with an open column literally named "participant identifier" that
shadows the `participantIdentifier` field. -/
def c6MsgShadow : ChatMessage :=
  { messageType := "t", messageContent := "x", sessionId := "s",
    messageDate := "d", participantIdentifier := "BBB",
    openFields := [("participant identifier", "AAA")] }

/-- Message with only the `participantIdentifier` field populated. -/
def c6MsgPlain : ChatMessage :=
  { messageType := "t", messageContent := "x", sessionId := "s",
    messageDate := "d", participantIdentifier := " P1 " }

/-! ## Basic lemmas about the record and string operations -/

theorem jsGet_jsSet_self (r : SessionResult) (k v : String) :
    jsGet (jsSet r k v) k = some v := by
  induction r with
  | nil => simp [jsSet, jsGet]
  | cons p t ih =>
    by_cases h : p.1 = k
    · simp [jsSet, jsGet, h]
    · simp only [jsSet, jsGet]
      rw [if_neg (by simpa using h)]
      simpa [jsGet, (by simpa using h : (p.1 == k) = false)] using ih

theorem jsGet_jsSet_ne (r : SessionResult) (k' v k : String) (h : k' ≠ k) :
    jsGet (jsSet r k' v) k = jsGet r k := by
  induction r with
  | nil => simp [jsSet, jsGet, h]
  | cons p t ih =>
    by_cases hp : p.1 = k'
    · simp [jsSet, jsGet, hp, h]
    · simp only [jsSet, jsGet]
      rw [if_neg (by simpa using hp)]
      by_cases hk : p.1 = k
      · simp [jsGet, hk]
      · simp [jsGet, (by simpa using hk : (p.1 == k) = false), ih]

theorem jsGet_jsSet_isSome (r : SessionResult) (k' v k : String)
    (h : (jsGet r k).isSome) : (jsGet (jsSet r k' v) k).isSome := by
  by_cases hk : k' = k
  · subst hk; simp [jsGet_jsSet_self]
  · rwa [jsGet_jsSet_ne r k' v k hk]

theorem map_self_of_mem {α : Type} (f : α → α) (l : List α) (h : ∀ x ∈ l, f x = x) :
    l.map f = l := by
  induction l with
  | nil => rfl
  | cons a t ih =>
    simp only [List.map_cons, List.cons.injEq]
    exact ⟨h a (by simp), ih (fun x hx => h x (by simp [hx]))⟩

theorem filter_self_of_mem {α : Type} (p : α → Bool) (l : List α) (h : ∀ x ∈ l, p x = true) :
    l.filter p = l := by
  induction l with
  | nil => rfl
  | cons a t ih =>
    simp only [List.filter_cons, h a (by simp), if_pos]
    exact congrArg (a :: ·) (ih (fun x hx => h x (by simp [hx])))

theorem toByteRange_clean (c : Char) : (toByteRange c).toNat ≤ 0xFF := by
  unfold toByteRange
  split
  · decide
  · omega

theorem toByteRange_of_clean (c : Char) (h : c.toNat ≤ 0xFF) : toByteRange c = c := by
  unfold toByteRange
  rw [if_neg (by omega)]

theorem sanitizeChars_mem_clean (cs : List Char) (c : Char) (h : c ∈ sanitizeChars cs) :
    c.toNat ≤ 0xFF ∧ isRemovedControl c = false := by
  unfold sanitizeChars at h
  have h1 := List.mem_filter.mp h
  obtain ⟨d, _, hd⟩ := List.mem_map.mp h1.1
  constructor
  · rw [← hd]; exact toByteRange_clean d
  · simpa using h1.2

theorem sanitizeChars_of_clean (cs : List Char)
    (h : ∀ c ∈ cs, c.toNat ≤ 0xFF ∧ isRemovedControl c = false) :
    sanitizeChars cs = cs := by
  unfold sanitizeChars
  rw [map_self_of_mem _ _ (fun c hc => toByteRange_of_clean c (h c hc).1)]
  exact filter_self_of_mem _ _ (fun c hc => by simp [(h c hc).2])

theorem sanitizeChars_idem (cs : List Char) :
    sanitizeChars (sanitizeChars cs) = sanitizeChars cs :=
  sanitizeChars_of_clean _ (fun c hc => sanitizeChars_mem_clean cs c hc)

/-- C9: `sanitizeString` is idempotent — sanitizing an already-sanitized string
(space-substituting characters above U+00FF, then removing the control
characters 0x00–0x08, 0x0B, 0x0C, 0x0E–0x1F) alters no further characters. -/
theorem claim_C9_sanitize_idempotent (s : String) :
    sanitizeString (sanitizeString s) = sanitizeString s := by
  unfold sanitizeString
  exact congrArg String.mk (sanitizeChars_idem s.data)

theorem stringMk_data (cs : List Char) : (String.mk cs).data = cs := rfl

theorem sanitize_jsTake_sanitize (s : String) :
    sanitizeString (jsTake 200 (sanitizeString s)) = jsTake 200 (sanitizeString s) := by
  unfold sanitizeString jsTake
  rw [stringMk_data, stringMk_data]
  exact congrArg String.mk
    (sanitizeChars_of_clean _
      (fun c hc => sanitizeChars_mem_clean s.data c (List.take_subset _ _ hc)))

theorem jsTake_sanitize_jsTake (s : String) :
    jsTake 200 (sanitizeString (jsTake 200 (sanitizeString s))) =
      jsTake 200 (sanitizeString s) := by
  rw [sanitize_jsTake_sanitize]
  unfold jsTake
  rw [stringMk_data, List.take_take, Nat.min_self]

theorem formatMessageLine_truncContent (m : ChatMessage) :
    formatMessageLine (truncContent m) = formatMessageLine m := by
  unfold formatMessageLine truncContent
  simp only
  rw [jsTake_sanitize_jsTake]

theorem format_eq_trunc (msgs : List ChatMessage) :
    formatConversationTextOptimized ((msgs.take 30).map truncContent) =
      formatConversationTextOptimized msgs := by
  unfold formatConversationTextOptimized
  have hlen : ((msgs.take 30).map truncContent).length ≤ 30 := by
    simp [List.length_take_le]
  rw [List.take_of_length_le hlen, List.map_map]
  exact congrArg (String.intercalate "\n")
    (List.map_congr_left (fun m _ => formatMessageLine_truncContent m))

/-- C10 (amended): the transcript sent to the completion service depends only on
the session's first 30 messages, with each message's sanitized content cut to
its first 200 characters — the payload for any message list coincides with the
payload for the 30-message sanitized-and-truncated list. -/
theorem claim_C10_amended (sid : String) (q : Query) (msgs : List ChatMessage) :
    userMessageContent sid q (formatConversationTextOptimized msgs) =
      userMessageContent sid q
        (formatConversationTextOptimized ((msgs.take 30).map truncContent)) :=
  (congrArg (userMessageContent sid q) (format_eq_trunc msgs)).symm

set_option maxRecDepth 4096 in
/-- C10 counterexample: two message lists whose raw contents agree on their
first 200 characters (and on every other field) still produce different
payloads, because the code sanitizes before truncating — characters beyond the
200th position of the raw content can slide into the kept window. -/
theorem claim_C10_counterexample :
    cexMsgA.messageContent.data.take 200 = cexMsgB.messageContent.data.take 200 ∧
    cexMsgA.messageType = cexMsgB.messageType ∧
    cexMsgA.participantIdentifier = cexMsgB.participantIdentifier ∧
    cexMsgA.messageDate = cexMsgB.messageDate ∧
    userMessageContent "s" cexQuery (formatConversationTextOptimized [cexMsgA]) ≠
      userMessageContent "s" cexQuery (formatConversationTextOptimized [cexMsgB]) := by
  decide

/-! ## Substring lemmas for the rate-limit classification -/

theorem leadsWith_append (sub l1 l2 : List Char) (h : leadsWith sub l1 = true) :
    leadsWith sub (l1 ++ l2) = true := by
  induction sub generalizing l1 with
  | nil => rfl
  | cons a as ih =>
    cases l1 with
    | nil => simp [leadsWith] at h
    | cons b bs =>
      simp only [leadsWith, Bool.and_eq_true] at h
      simpa [leadsWith, h.1] using ih bs h.2

theorem containsChars_nil_sub (l : List Char) : containsChars [] l = true := by
  cases l <;> simp [containsChars, leadsWith]

theorem containsChars_append_right (sub l1 l2 : List Char)
    (h : containsChars sub l1 = true) : containsChars sub (l1 ++ l2) = true := by
  induction l1 with
  | nil =>
    simp only [containsChars, List.isEmpty_iff] at h
    subst h
    simpa using containsChars_nil_sub l2
  | cons b bs ih =>
    simp only [containsChars, Bool.or_eq_true] at h
    rcases h with h | h
    · simp only [List.cons_append, containsChars, Bool.or_eq_true]
      exact Or.inl (by simpa using leadsWith_append sub (b :: bs) l2 (by simpa using h))
    · simp only [List.cons_append, containsChars, Bool.or_eq_true]
      exact Or.inr (ih h)

theorem strIncludes_append_right (s1 s2 sub : String)
    (h : strIncludes s1 sub = true) : strIncludes (s1 ++ s2) sub = true := by
  unfold strIncludes at *
  rw [String.data_append]
  exact containsChars_append_right _ _ _ h

theorem rateLimitMessage_includes (x : String) :
    strIncludes ("OpenAI API rate limit exceeded: " ++ x) "rate limit" = true :=
  strIncludes_append_right _ _ _ (by decide)

theorem callOpenAIAPI_429 (body : Option String) :
    ∃ x, callOpenAIAPI (.httpError 429 body) =
      .error ("OpenAI API rate limit exceeded: " ++ x) := by
  cases body with
  | none => exact ⟨_, rfl⟩
  | some m =>
    by_cases h : m = ""
    · subst h; exact ⟨_, rfl⟩
    · refine ⟨sanitizeString m, ?_⟩
      simp [callOpenAIAPI, h]

theorem handleQueryError_rate_limit (msg : String)
    (h : strIncludes msg "rate limit" = true) :
    handleQueryError msg = "API rate limit exceeded" := by
  simp [handleQueryError, h]

theorem getElem?_of_set_self {α : Type} (l : List α) (i : Nat) (a b : α)
    (h : l[i]? = some b) : (l.set i a)[i]? = some a := by
  have hlt : i < l.length := by
    by_contra hge
    rw [List.getElem?_eq_none (by omega)] at h
    exact Option.noConfusion h
  rw [List.getElem?_set_self hlt]

/-- C7: when a remote call settles with an HTTP 429 rate-limit classification,
the session record's entry for that query is set to the rate-limit placeholder,
the task enters the 6000ms rate-limit cooldown, and completing that cooldown
resets the consecutive-call pacing counter to zero (so the next pacing delay is
computed from a zero consecutive-call count). -/
theorem claim_C7_rate_limit_reset (queryData : List Query)
    (msgsOpt : Option (List ChatMessage)) (st st2 : SessState) (i j : Nat) (q : Query)
    (body : Option String) (w : Nat) (o2 : ApiOutcome)
    (hq : queryData[i]? = some q) (ht : st.tasks[i]? = some .inFlight)
    (ht2 : st2.tasks[j]? = some (.rateLimitSleep w)) (hq2 : (queryData[j]?).isSome)
    (hw : w ≤ st2.clock) :
    jsGet (stepDirective queryData msgsOpt st (.resume i (.httpError 429 body))).result
        q.queryName = some "API rate limit exceeded" ∧
    (stepDirective queryData msgsOpt st (.resume i (.httpError 429 body))).tasks[i]? =
      some (.rateLimitSleep (st.clock + 6000)) ∧
    (stepDirective queryData msgsOpt st2 (.resume j o2)).consecutive = 0 := by
  obtain ⟨x, hx⟩ := callOpenAIAPI_429 body
  have hinc := rateLimitMessage_includes x
  have hstep : stepDirective queryData msgsOpt st (.resume i (.httpError 429 body)) =
      runResponse q st i (.httpError 429 body) := by
    simp [stepDirective, ht, hq]
  have hresp : runResponse q st i (.httpError 429 body) =
      { st with
        result := jsSet st.result q.queryName
          (handleQueryError ("OpenAI API rate limit exceeded: " ++ x)),
        tasks := st.tasks.set i (.rateLimitSleep (st.clock + 6000)) } := by
    simp [runResponse, hx, hinc]
  obtain ⟨q2, hq2'⟩ := Option.isSome_iff_exists.mp hq2
  refine ⟨?_, ?_, ?_⟩
  · rw [hstep, hresp]
    simp only
    rw [handleQueryError_rate_limit _ hinc, jsGet_jsSet_self]
  · rw [hstep, hresp]
    exact getElem?_of_set_self _ _ _ _ ht
  · simp [stepDirective, ht2, hq2', hw, runRateLimitDone]

/-- Witness for C7: a concrete two-state instantiation. -/
theorem claim_C7_witness :
    jsGet (stepDirective [cexQuery] none
        { clock := 5, activeRequests := 1, consecutive := 2, maxActive := 3,
          result := [("sessionId", "s")], tasks := [.inFlight], calls := [0], skips := [] }
        (.resume 0 (.httpError 429 (some "slow down")))).result
      cexQuery.queryName = some "API rate limit exceeded" ∧
    (stepDirective [cexQuery] none
        { clock := 5, activeRequests := 1, consecutive := 2, maxActive := 3,
          result := [("sessionId", "s")], tasks := [.inFlight], calls := [0], skips := [] }
        (.resume 0 (.httpError 429 (some "slow down")))).tasks[0]? =
      some (.rateLimitSleep (5 + 6000)) ∧
    (stepDirective [cexQuery] none
        { clock := 7000, activeRequests := 1, consecutive := 4, maxActive := 3,
          result := [("sessionId", "s"), ("Summary", "API rate limit exceeded")],
          tasks := [.rateLimitSleep 6005], calls := [0], skips := [] }
        (.resume 0 (.ok ""))).consecutive = 0 :=
  claim_C7_rate_limit_reset [cexQuery] none _ _ 0 0 cexQuery (some "slow down") 6005 (.ok "")
    (by decide) (by decide) (by decide) (by decide) (by decide)


/-! ## Concurrency-counter invariant -/

theorem runAcquiredBody_counter (q : Query) (msgsOpt : Option (List ChatMessage))
    (st : SessState) (i : Nat) :
    (runAcquiredBody q msgsOpt st i).activeRequests ≤ st.activeRequests ∧
    (runAcquiredBody q msgsOpt st i).maxActive = st.maxActive := by
  unfold runAcquiredBody
  rcases msgsOpt with _ | msgs
  · exact ⟨Nat.sub_le _ _, rfl⟩
  · simp only
    split
    · exact ⟨Nat.sub_le _ _, rfl⟩
    · exact ⟨Nat.le_refl _, rfl⟩

theorem runPollCheck_counter (q : Query) (msgsOpt : Option (List ChatMessage))
    (st : SessState) (i qs : Nat)
    (h1 : st.activeRequests ≤ maxConcurrentRequests)
    (h2 : st.maxActive ≤ maxConcurrentRequests) :
    (runPollCheck q msgsOpt st i qs).activeRequests ≤ maxConcurrentRequests ∧
    (runPollCheck q msgsOpt st i qs).maxActive ≤ maxConcurrentRequests := by
  unfold runPollCheck
  split
  · split
    · exact ⟨h1, h2⟩
    · exact ⟨h1, h2⟩
  · rename_i hfull
    have hlt : st.activeRequests + 1 ≤ maxConcurrentRequests := by
      unfold maxConcurrentRequests at *
      omega
    have hb := runAcquiredBody_counter q msgsOpt
      { st with
        activeRequests := st.activeRequests + 1,
        maxActive := max st.maxActive (st.activeRequests + 1) } i
    refine ⟨le_trans hb.1 hlt, ?_⟩
    rw [hb.2]
    exact max_le h2 hlt

theorem stepDirective_counter (queryData : List Query)
    (msgsOpt : Option (List ChatMessage)) (st : SessState) (d : Directive)
    (h1 : st.activeRequests ≤ maxConcurrentRequests)
    (h2 : st.maxActive ≤ maxConcurrentRequests) :
    (stepDirective queryData msgsOpt st d).activeRequests ≤ maxConcurrentRequests ∧
    (stepDirective queryData msgsOpt st d).maxActive ≤ maxConcurrentRequests := by
  rcases d with dt | ⟨i, o⟩
  · exact ⟨h1, h2⟩
  · simp only [stepDirective]
    split
    · split
      · exact runPollCheck_counter _ msgsOpt st i _ h1 h2
      · split
        · exact runPollCheck_counter _ msgsOpt st i _ h1 h2
        · exact ⟨h1, h2⟩
      · split
        · dsimp only [runPacingDone]
          split
          · exact ⟨h1, h2⟩
          · exact ⟨h1, h2⟩
        · exact ⟨h1, h2⟩
      · split
        · exact ⟨h1, h2⟩
        · exact ⟨h1, h2⟩
      · unfold runResponse
        split
        · exact ⟨le_trans (Nat.sub_le _ _) h1, h2⟩
        · split
          · exact ⟨h1, h2⟩
          · exact ⟨le_trans (Nat.sub_le _ _) h1, h2⟩
      · split
        · exact ⟨le_trans (Nat.sub_le _ _) h1, h2⟩
        · exact ⟨h1, h2⟩
      · exact ⟨h1, h2⟩
    · exact ⟨h1, h2⟩

theorem foldl_step_counter (queryData : List Query) (msgsOpt : Option (List ChatMessage))
    (ds : List Directive) :
    ∀ st : SessState, st.activeRequests ≤ maxConcurrentRequests →
      st.maxActive ≤ maxConcurrentRequests →
      (ds.foldl (stepDirective queryData msgsOpt) st).activeRequests ≤ maxConcurrentRequests ∧
      (ds.foldl (stepDirective queryData msgsOpt) st).maxActive ≤ maxConcurrentRequests := by
  induction ds with
  | nil => exact fun st h1 h2 => ⟨h1, h2⟩
  | cons d rest ih =>
    intro st h1 h2
    have h := stepDirective_counter queryData msgsOpt st d h1 h2
    exact ih _ h.1 h.2

theorem runSession_counter (queryData : List Query) (msgsOpt : Option (List ChatMessage))
    (record : SessionResult) (g : GlobalSt) (ds : List Directive)
    (h1 : g.activeRequests ≤ maxConcurrentRequests)
    (h2 : g.maxActive ≤ maxConcurrentRequests) :
    (runSession queryData msgsOpt record g ds).activeRequests ≤ maxConcurrentRequests ∧
    (runSession queryData msgsOpt record g ds).maxActive ≤ maxConcurrentRequests := by
  unfold runSession
  exact foldl_step_counter queryData msgsOpt _ _ h1 h2

theorem runSessionsAux_counter (chatData : List ChatMessage) (queryData : List Query) :
    ∀ (ids : List String) (oracle : List (List Directive)) (g : GlobalSt),
      g.activeRequests ≤ maxConcurrentRequests → g.maxActive ≤ maxConcurrentRequests →
      ∀ st ∈ (runSessionsAux chatData queryData ids oracle g).1,
        st.activeRequests ≤ maxConcurrentRequests ∧ st.maxActive ≤ maxConcurrentRequests := by
  intro ids
  induction ids with
  | nil => intro oracle g _ _ st hst; simp [runSessionsAux] at hst
  | cons sid rest ih =>
    intro oracle g h1 h2 st hst
    rw [runSessionsAux] at hst
    have hfin := runSession_counter queryData
      (groupLookup chatData (sanitizeString sid)) (baseRecord chatData sid) g
      (oracle.headD []) h1 h2
    by_cases hc : sessionComplete (runSession queryData
        (groupLookup chatData (sanitizeString sid)) (baseRecord chatData sid) g
        (oracle.headD [])) = true
    · rw [if_pos hc] at hst
      rcases List.mem_cons.mp hst with h | h
      · subst h; exact hfin
      · exact ih oracle.tail _ hfin.1 hfin.2 st h
    · rw [if_neg hc] at hst
      rcases List.mem_singleton.mp hst with h
      subst h; exact hfin

/-- C2: at no point during a run of `processData` does the in-flight remote-call
counter `activeRequests` (incremented before dispatch and decremented in the
guaranteed cleanup path) exceed the configured bound `maxConcurrentRequests`
(3): every reachable per-session state — including the running maximum the
instrumentation records at each acquisition — is bounded by it, for every input
message list, query list and environment behaviour. -/
theorem claim_C2_concurrency_bound (chatData : List ChatMessage) (queryData : List Query)
    (apiKey : String) (oracle : List (List Directive)) (st : SessState)
    (hst : st ∈ (processData chatData queryData apiKey oracle).sessions) :
    st.activeRequests ≤ maxConcurrentRequests ∧ st.maxActive ≤ maxConcurrentRequests := by
  unfold processData at hst
  by_cases h : (chatData.isEmpty || queryData.isEmpty || apiKey == "") = true
  · rw [if_pos h] at hst
    simp at hst
  · rw [if_neg h] at hst
    exact runSessionsAux_counter chatData queryData _ oracle _ (by decide) (by decide) st hst

/-- Witness for C2: the invariant instantiated on a concrete completed run. -/
theorem claim_C2_witness :
    ((processData [cexMsgA] [cexQuery] "key"
        [[Directive.resume 0 (.ok ""), Directive.resume 0 (.ok "fine")]]).sessions.getD 0
      dummySessState).activeRequests ≤ maxConcurrentRequests ∧
    ((processData [cexMsgA] [cexQuery] "key"
        [[Directive.resume 0 (.ok ""), Directive.resume 0 (.ok "fine")]]).sessions.getD 0
      dummySessState).maxActive ≤ maxConcurrentRequests :=
  claim_C2_concurrency_bound [cexMsgA] [cexQuery] "key"
    [[Directive.resume 0 (.ok ""), Directive.resume 0 (.ok "fine")]] _ (by decide)

/-! ## Structure of completed runs -/

theorem mem_of_getElem?' {α : Type} {l : List α} {i : Nat} {a : α}
    (h : l[i]? = some a) : a ∈ l := by
  obtain ⟨hlt, heq⟩ := List.getElem?_eq_some.mp h
  exact heq ▸ List.getElem_mem hlt

theorem runSessionsAux_cons_complete (cd : List ChatMessage) (qd : List Query)
    (sid : String) (rest : List String) (oracle : List (List Directive)) (g : GlobalSt)
    (hc : sessionComplete (runSession qd (groupLookup cd (sanitizeString sid))
      (baseRecord cd sid) g (oracle.headD [])) = true) :
    runSessionsAux cd qd (sid :: rest) oracle g =
      (runSession qd (groupLookup cd (sanitizeString sid)) (baseRecord cd sid) g
          (oracle.headD []) ::
        (runSessionsAux cd qd rest oracle.tail (globOf (runSession qd
          (groupLookup cd (sanitizeString sid)) (baseRecord cd sid) g
          (oracle.headD [])))).1,
       (runSessionsAux cd qd rest oracle.tail (globOf (runSession qd
         (groupLookup cd (sanitizeString sid)) (baseRecord cd sid) g
         (oracle.headD [])))).2) := by
  simp only [runSessionsAux, hc, if_true]

theorem runSessionsAux_cons_stalled (cd : List ChatMessage) (qd : List Query)
    (sid : String) (rest : List String) (oracle : List (List Directive)) (g : GlobalSt)
    (hc : sessionComplete (runSession qd (groupLookup cd (sanitizeString sid))
      (baseRecord cd sid) g (oracle.headD [])) = false) :
    runSessionsAux cd qd (sid :: rest) oracle g =
      ([runSession qd (groupLookup cd (sanitizeString sid)) (baseRecord cd sid) g
        (oracle.headD [])], false) := by
  simp only [runSessionsAux, hc, Bool.false_eq_true, if_false]

theorem runSessionsAux_spec (cd : List ChatMessage) (qd : List Query) :
    ∀ (ids : List String) (oracle : List (List Directive)) (g : GlobalSt),
      (runSessionsAux cd qd ids oracle g).2 = true →
      (runSessionsAux cd qd ids oracle g).1.length = ids.length ∧
      ∀ (k : Nat) (sid : String), ids[k]? = some sid →
        ∃ g2 ds,
          (runSessionsAux cd qd ids oracle g).1[k]? =
            some (runSession qd (groupLookup cd (sanitizeString sid))
              (baseRecord cd sid) g2 ds) ∧
          sessionComplete (runSession qd (groupLookup cd (sanitizeString sid))
            (baseRecord cd sid) g2 ds) = true := by
  intro ids
  induction ids with
  | nil =>
    intro oracle g _
    exact ⟨rfl, fun k sid hk => absurd hk (by simp)⟩
  | cons sid0 rest ih =>
    intro oracle g hdone
    by_cases hc : sessionComplete (runSession qd (groupLookup cd (sanitizeString sid0))
        (baseRecord cd sid0) g (oracle.headD [])) = true
    · rw [runSessionsAux_cons_complete cd qd sid0 rest oracle g hc] at hdone ⊢
      obtain ⟨ihlen, ihspec⟩ := ih oracle.tail (globOf (runSession qd
        (groupLookup cd (sanitizeString sid0)) (baseRecord cd sid0) g
        (oracle.headD []))) hdone
      refine ⟨by simpa using ihlen, ?_⟩
      intro k sid hk
      cases k with
      | zero =>
        rw [List.getElem?_cons_zero] at hk
        injection hk with h
        subst h
        exact ⟨g, oracle.headD [], List.getElem?_cons_zero, hc⟩
      | succ n =>
        rw [List.getElem?_cons_succ] at hk
        simpa using ihspec n sid hk
    · rw [runSessionsAux_cons_stalled cd qd sid0 rest oracle g
        (Bool.not_eq_true _ ▸ hc : sessionComplete _ = false)] at hdone
      simp at hdone

/-! ## Preservation of non-query record keys -/

theorem runAcquiredBody_result_key (q : Query) (msgsOpt : Option (List ChatMessage))
    (st : SessState) (i : Nat) (k0 : String) (hne : q.queryName ≠ k0) :
    jsGet (runAcquiredBody q msgsOpt st i).result k0 = jsGet st.result k0 := by
  unfold runAcquiredBody
  rcases msgsOpt with _ | msgs
  · exact jsGet_jsSet_ne _ _ _ _ hne
  · simp only
    split
    · exact jsGet_jsSet_ne _ _ _ _ hne
    · rfl

theorem runPollCheck_result_key (q : Query) (msgsOpt : Option (List ChatMessage))
    (st : SessState) (i qs : Nat) (k0 : String) (hne : q.queryName ≠ k0) :
    jsGet (runPollCheck q msgsOpt st i qs).result k0 = jsGet st.result k0 := by
  unfold runPollCheck
  split
  · split
    · rfl
    · rfl
  · exact runAcquiredBody_result_key q msgsOpt _ i k0 hne

theorem runResponse_result_key (q : Query) (st : SessState) (i : Nat) (o : ApiOutcome)
    (k0 : String) (hne : q.queryName ≠ k0) :
    jsGet (runResponse q st i o).result k0 = jsGet st.result k0 := by
  unfold runResponse
  split
  · exact jsGet_jsSet_ne _ _ _ _ hne
  · split
    · exact jsGet_jsSet_ne _ _ _ _ hne
    · exact jsGet_jsSet_ne _ _ _ _ hne

theorem stepDirective_result_key (queryData : List Query)
    (msgsOpt : Option (List ChatMessage)) (st : SessState) (d : Directive) (k0 : String)
    (hk : ∀ q ∈ queryData, q.queryName ≠ k0) :
    jsGet (stepDirective queryData msgsOpt st d).result k0 = jsGet st.result k0 := by
  rcases d with dt | ⟨i, o⟩
  · rfl
  · simp only [stepDirective]
    split
    · rename_i ph q heq1 heq2
      have hne := hk q (mem_of_getElem?' heq2)
      split
      · exact runPollCheck_result_key q msgsOpt st i _ k0 hne
      · split
        · exact runPollCheck_result_key q msgsOpt st i _ k0 hne
        · rfl
      · split
        · dsimp only [runPacingDone]
          split
          · rfl
          · rfl
        · rfl
      · split
        · rfl
        · rfl
      · exact runResponse_result_key q st i o k0 hne
      · split
        · rfl
        · rfl
      · rfl
    · rfl

theorem foldl_result_key (queryData : List Query) (msgsOpt : Option (List ChatMessage))
    (ds : List Directive) (k0 : String) (hk : ∀ q ∈ queryData, q.queryName ≠ k0) :
    ∀ st : SessState,
      jsGet (ds.foldl (stepDirective queryData msgsOpt) st).result k0 =
        jsGet st.result k0 := by
  induction ds with
  | nil => exact fun st => rfl
  | cons d rest ih =>
    intro st
    rw [List.foldl_cons, ih, stepDirective_result_key queryData msgsOpt st d k0 hk]

theorem runSession_result_key (queryData : List Query) (msgsOpt : Option (List ChatMessage))
    (record : SessionResult) (g : GlobalSt) (ds : List Directive) (k0 : String)
    (hk : ∀ q ∈ queryData, q.queryName ≠ k0) :
    jsGet (runSession queryData msgsOpt record g ds).result k0 = jsGet record k0 := by
  unfold runSession
  exact foldl_result_key queryData msgsOpt _ k0 hk _

theorem jsGet_baseRecord_sessionId (cd : List ChatMessage) (sid : String) :
    jsGet (baseRecord cd sid) "sessionId" = some (sanitizeString sid) := by
  simp [baseRecord, jsGet]

theorem jsGet_baseRecord_startDate (cd : List ChatMessage) (sid : String) :
    jsGet (baseRecord cd sid) "Start date" =
      some (sanitizeString (startDateOf (sessionMessagesFor cd sid))) := by
  simp [baseRecord, jsGet]

/-! ## Unfolding equations for processData -/

theorem processData_empty (cd : List ChatMessage) (qd : List Query) (key : String)
    (oracle : List (List Directive))
    (h : (cd.isEmpty || qd.isEmpty || key == "") = true) :
    processData cd qd key oracle = { results := none, sessions := [], completed := true } := by
  simp only [processData, h, if_true]

theorem processData_run (cd : List ChatMessage) (qd : List Query) (key : String)
    (oracle : List (List Directive))
    (h : (cd.isEmpty || qd.isEmpty || key == "") = false) :
    processData cd qd key oracle =
      { results := if (runSessionsAux cd qd (jsKeyOrder (firstSeenIds cd)) oracle
            { clock := 0, activeRequests := 0, consecutive := 0, maxActive := 0 }).2
          then some ((runSessionsAux cd qd (jsKeyOrder (firstSeenIds cd)) oracle
            { clock := 0, activeRequests := 0, consecutive := 0, maxActive := 0 }).1.map
              SessState.result)
          else none,
        sessions := (runSessionsAux cd qd (jsKeyOrder (firstSeenIds cd)) oracle
          { clock := 0, activeRequests := 0, consecutive := 0, maxActive := 0 }).1,
        completed := (runSessionsAux cd qd (jsKeyOrder (firstSeenIds cd)) oracle
          { clock := 0, activeRequests := 0, consecutive := 0, maxActive := 0 }).2 } := by
  simp only [processData, h, Bool.false_eq_true, if_false]

/-- C4 (amended): the returned records are ordered by the JavaScript object-key
enumeration of the first-seen session ids — canonical array-index ids first in
ascending numeric order, then the remaining ids in first-seen order — with each
record's stored id being the sanitized raw id (provided no query is named
"sessionId", which would overwrite that column). -/
theorem claim_C4_amended (cd : List ChatMessage) (qd : List Query) (key : String)
    (oracle : List (List Directive)) (rs : List SessionResult)
    (hres : (processData cd qd key oracle).results = some rs)
    (hname : ∀ q ∈ qd, q.queryName ≠ "sessionId") :
    rs.map (fun r => jsGet r "sessionId") =
      (jsKeyOrder (firstSeenIds cd)).map (fun sid => some (sanitizeString sid)) := by
  by_cases hemp : (cd.isEmpty || qd.isEmpty || key == "") = true
  · rw [processData_empty cd qd key oracle hemp] at hres
    exact absurd hres (by simp)
  · rw [processData_run cd qd key oracle (Bool.not_eq_true _ ▸ hemp)] at hres
    simp only at hres
    by_cases hdone : (runSessionsAux cd qd (jsKeyOrder (firstSeenIds cd)) oracle
        { clock := 0, activeRequests := 0, consecutive := 0, maxActive := 0 }).2 = true
    · rw [if_pos hdone] at hres
      injection hres with hres
      subst hres
      obtain ⟨hlen, hspec⟩ := runSessionsAux_spec cd qd _ oracle _ hdone
      apply List.ext_getElem?
      intro n
      rw [List.getElem?_map, List.getElem?_map, List.getElem?_map]
      cases hn : (jsKeyOrder (firstSeenIds cd))[n]? with
      | none =>
        have hge : (jsKeyOrder (firstSeenIds cd)).length ≤ n := by
          by_contra hlt
          rw [List.getElem?_eq_some.mpr ⟨by omega, rfl⟩] at hn
          exact Option.noConfusion hn
        rw [List.getElem?_eq_none (by omega)]
        rfl
      | some sid =>
        obtain ⟨g2, ds, hfin, _⟩ := hspec n sid hn
        rw [hfin]
        simp only [Option.map_some']
        rw [runSession_result_key qd _ _ g2 ds "sessionId" hname,
          jsGet_baseRecord_sessionId]
    · rw [if_neg hdone] at hres
      exact absurd hres (by simp)

/-- Witness for C4: the amended ordering property on a concrete completed run. -/
theorem claim_C4_witness :
    (processData [c1Msg] [cexQuery] "k" oneSessionOracle).results.map
        (fun rs => rs.map (fun r => jsGet r "sessionId")) =
      some ((jsKeyOrder (firstSeenIds [c1Msg])).map
        (fun sid => some (sanitizeString sid))) := by
  have hres : (processData [c1Msg] [cexQuery] "k" oneSessionOracle).results =
      some (((processData [c1Msg] [cexQuery] "k" oneSessionOracle).results).getD []) := by
    decide
  have h := claim_C4_amended [c1Msg] [cexQuery] "k" oneSessionOracle _ hres (by decide)
  rw [hres, Option.map_some']
  exact congrArg some h

/-- C4 counterexample: with the canonical array-index session ids "2" and "1"
(first seen in that order), the returned list is ordered "1" then "2" — the
numeric JavaScript key order — not the first-seen order the claim states. -/
theorem claim_C4_counterexample :
    (processData c4Messages [cexQuery] "k" twoSessionOracle).results.map
        (fun rs => rs.map (fun r => jsGet r "sessionId")) = some [some "1", some "2"] ∧
    firstSeenIds c4Messages = ["2", "1"] ∧
    ([some "1", some "2"] : List (Option String)) ≠
      (firstSeenIds c4Messages).map (fun sid => some (sanitizeString sid)) := by
  decide

/-- C8 (amended): every returned record's "Start date" is the sanitized
`messageDate` of the first message of that session in arrival order (not the
chronological minimum; provided no query is named "Start date", which would
overwrite that column), and an empty message sequence yields the empty string. -/
theorem claim_C8_amended (cd : List ChatMessage) (qd : List Query) (key : String)
    (oracle : List (List Directive)) (rs : List SessionResult) (k : Nat) (sid : String)
    (r : SessionResult)
    (hres : (processData cd qd key oracle).results = some rs)
    (hname : ∀ q ∈ qd, q.queryName ≠ "Start date")
    (hk : (jsKeyOrder (firstSeenIds cd))[k]? = some sid)
    (hr : rs[k]? = some r) :
    jsGet r "Start date" =
      some (sanitizeString (startDateOf (sessionMessagesFor cd sid))) ∧
    startDateOf ([] : List ChatMessage) = "" := by
  refine ⟨?_, rfl⟩
  by_cases hemp : (cd.isEmpty || qd.isEmpty || key == "") = true
  · rw [processData_empty cd qd key oracle hemp] at hres
    exact absurd hres (by simp)
  · rw [processData_run cd qd key oracle (Bool.not_eq_true _ ▸ hemp)] at hres
    simp only at hres
    by_cases hdone : (runSessionsAux cd qd (jsKeyOrder (firstSeenIds cd)) oracle
        { clock := 0, activeRequests := 0, consecutive := 0, maxActive := 0 }).2 = true
    · rw [if_pos hdone] at hres
      injection hres with hres
      subst hres
      obtain ⟨hlen, hspec⟩ := runSessionsAux_spec cd qd _ oracle _ hdone
      obtain ⟨g2, ds, hfin, _⟩ := hspec k sid hk
      rw [List.getElem?_map, hfin] at hr
      simp only [Option.map_some'] at hr
      injection hr with hr
      subst hr
      rw [runSession_result_key qd _ _ g2 ds "Start date" hname,
        jsGet_baseRecord_startDate]
    · rw [if_neg hdone] at hres
      exact absurd hres (by simp)

/-- Witness for C8: the amended start-date property on a concrete run. -/
theorem claim_C8_witness :
    jsGet (((processData [c1Msg] [cexQuery] "k" oneSessionOracle).results.getD []).getD 0 [])
        "Start date" =
      some (sanitizeString (startDateOf (sessionMessagesFor [c1Msg] "sess"))) ∧
    startDateOf ([] : List ChatMessage) = "" :=
  claim_C8_amended [c1Msg] [cexQuery] "k" oneSessionOracle
    ((processData [c1Msg] [cexQuery] "k" oneSessionOracle).results.getD []) 0 "sess"
    (((processData [c1Msg] [cexQuery] "k" oneSessionOracle).results.getD []).getD 0 [])
    (by decide) (by decide) (by decide) (by decide)

/-- C8 counterexample: a messageDate carrying a control character is stored
sanitized, so the recorded "Start date" differs from the first message's raw
`messageDate`. -/
theorem claim_C8_counterexample :
    (processData [c8Msg] [cexQuery] "k" oneSessionOracle).results.map
        (fun rs => rs.map (fun r => jsGet r "Start date")) = some [some "2024-01"] ∧
    c8Msg.messageDate = "2024\x0B-01" ∧
    (some "2024-01" : Option String) ≠ some c8Msg.messageDate := by
  decide

/-! ## Distinctness of the grouped session ids -/

theorem insertAscBy_perm (x : String) (l : List String) :
    (insertAscBy x l).Perm (x :: l) := by
  induction l with
  | nil => exact List.Perm.refl _
  | cons y ys ih =>
    unfold insertAscBy
    split
    · exact List.Perm.refl _
    · exact (List.Perm.cons y ih).trans (List.Perm.swap x y ys)

theorem sortAscBy_perm (l : List String) : (sortAscBy l).Perm l := by
  induction l with
  | nil => exact List.Perm.refl _
  | cons a t ih =>
    exact (insertAscBy_perm a (sortAscBy t)).trans (List.Perm.cons a ih)

theorem jsKeyOrder_perm (l : List String) : (jsKeyOrder l).Perm l := by
  unfold jsKeyOrder
  exact ((sortAscBy_perm _).append_right _).trans (List.filter_append_perm _ l)

theorem firstSeenAux_nodup (cd : List ChatMessage) :
    ∀ acc : List String, acc.Nodup →
      (cd.foldl (fun acc m =>
        if acc.contains m.sessionId then acc else acc ++ [m.sessionId]) acc).Nodup := by
  induction cd with
  | nil => exact fun acc h => h
  | cons m t ih =>
    intro acc h
    rw [List.foldl_cons]
    by_cases hc : acc.contains m.sessionId = true
    · rw [if_pos hc]
      exact ih acc h
    · rw [if_neg hc]
      apply ih
      rw [List.nodup_append]
      refine ⟨h, List.nodup_singleton _, ?_⟩
      intro a ha hb
      rw [List.mem_singleton] at hb
      subst hb
      exact hc (List.elem_iff.mpr ha)

theorem firstSeenIds_nodup (cd : List ChatMessage) : (firstSeenIds cd).Nodup :=
  firstSeenAux_nodup cd [] List.nodup_nil

theorem firstSeenAux_toFinset (cd : List ChatMessage) :
    ∀ acc : List String,
      (cd.foldl (fun acc m =>
        if acc.contains m.sessionId then acc else acc ++ [m.sessionId]) acc).toFinset =
      acc.toFinset ∪ (cd.map (fun m => m.sessionId)).toFinset := by
  induction cd with
  | nil => intro acc; simp
  | cons m t ih =>
    intro acc
    rw [List.foldl_cons]
    by_cases hc : acc.contains m.sessionId = true
    · have hm : m.sessionId ∈ acc := List.elem_iff.mp hc
      rw [if_pos hc, ih acc]
      ext a
      simp only [Finset.mem_union, List.mem_toFinset, List.map_cons, List.toFinset_cons,
        Finset.mem_insert]
      constructor
      · rintro (h | h)
        · exact Or.inl h
        · exact Or.inr (Or.inr h)
      · rintro (h | h | h)
        · exact Or.inl h
        · exact h ▸ Or.inl hm
        · exact Or.inr h
    · rw [if_neg hc, ih (acc ++ [m.sessionId])]
      ext a
      simp only [Finset.mem_union, List.mem_toFinset, List.mem_append, List.mem_singleton,
        List.map_cons, List.toFinset_cons, Finset.mem_insert]
      tauto

theorem firstSeenIds_toFinset (cd : List ChatMessage) :
    (firstSeenIds cd).toFinset = (cd.map (fun m => m.sessionId)).toFinset := by
  have h := firstSeenAux_toFinset cd []
  simpa [firstSeenIds] using h

/-- C5 (amended): for every completed run the number of returned records equals
the number of distinct raw sessionIds in the input (one record per distinct raw
id — the grouped key list is duplicate-free); the stored (sanitized) session
ids, however, may coincide when sanitization collapses distinct raw ids. -/
theorem claim_C5_amended (cd : List ChatMessage) (qd : List Query) (key : String)
    (oracle : List (List Directive)) (rs : List SessionResult)
    (hres : (processData cd qd key oracle).results = some rs) :
    rs.length = (cd.map (fun m => m.sessionId)).toFinset.card ∧
    rs.length = (jsKeyOrder (firstSeenIds cd)).length ∧
    (jsKeyOrder (firstSeenIds cd)).Nodup := by
  have hnodup : (jsKeyOrder (firstSeenIds cd)).Nodup :=
    ((jsKeyOrder_perm (firstSeenIds cd)).nodup_iff).mpr (firstSeenIds_nodup cd)
  by_cases hemp : (cd.isEmpty || qd.isEmpty || key == "") = true
  · rw [processData_empty cd qd key oracle hemp] at hres
    exact absurd hres (by simp)
  · rw [processData_run cd qd key oracle (Bool.not_eq_true _ ▸ hemp)] at hres
    simp only at hres
    by_cases hdone : (runSessionsAux cd qd (jsKeyOrder (firstSeenIds cd)) oracle
        { clock := 0, activeRequests := 0, consecutive := 0, maxActive := 0 }).2 = true
    · rw [if_pos hdone] at hres
      injection hres with hres
      subst hres
      obtain ⟨hlen, _⟩ := runSessionsAux_spec cd qd _ oracle _ hdone
      have hlen2 : ((runSessionsAux cd qd (jsKeyOrder (firstSeenIds cd)) oracle
          { clock := 0, activeRequests := 0, consecutive := 0,
            maxActive := 0 }).1.map SessState.result).length =
          (jsKeyOrder (firstSeenIds cd)).length := by
        simpa [List.length_map] using hlen
      refine ⟨?_, hlen2, hnodup⟩
      rw [hlen2, (jsKeyOrder_perm (firstSeenIds cd)).length_eq,
        ← List.toFinset_card_of_nodup (firstSeenIds_nodup cd), firstSeenIds_toFinset]
    · rw [if_neg hdone] at hres
      exact absurd hres (by simp)

/-- Witness for C5: the amended counting property on a concrete run. -/
theorem claim_C5_witness :
    ((processData [c1Msg] [cexQuery] "k" oneSessionOracle).results.getD []).length =
      ([c1Msg].map (fun m => m.sessionId)).toFinset.card ∧
    ((processData [c1Msg] [cexQuery] "k" oneSessionOracle).results.getD []).length =
      (jsKeyOrder (firstSeenIds [c1Msg])).length ∧
    (jsKeyOrder (firstSeenIds [c1Msg])).Nodup :=
  claim_C5_amended [c1Msg] [cexQuery] "k" oneSessionOracle
    ((processData [c1Msg] [cexQuery] "k" oneSessionOracle).results.getD []) (by decide)

/-- C5 counterexample: two distinct raw session ids that sanitize to the same
string produce two returned records sharing the same stored `sessionId`,
refuting the claimed uniqueness of the records' sessionIds. -/
theorem claim_C5_counterexample :
    (processData c5Messages [cexQuery] "k" twoSessionOracle).results.map
        (fun rs => rs.map (fun r => jsGet r "sessionId")) = some [some "a", some "a"] ∧
    c5Messages.map (fun m => m.sessionId) = ["a", "a\x01"] ∧
    ("a" : String) ≠ "a\x01" := by
  decide

/-! ## Completeness invariant: every settled unskipped task has a value -/

theorem recordedAt_jsSet (queryData : List Query) (r : SessionResult) (i : Nat)
    (k v : String) (h : recordedAt queryData r i) :
    recordedAt queryData (jsSet r k v) i := by
  intro q hq
  exact jsGet_jsSet_isSome r k v q.queryName (h q hq)

theorem keyInvariant_write_finish (queryData : List Query) (st st' : SessState)
    (i : Nat) (q : Query) (v : String) (ph2 : TaskPhase)
    (hq : queryData[i]? = some q)
    (hres : st'.result = jsSet st.result q.queryName v)
    (htasks : st'.tasks = st.tasks.set i ph2)
    (hskips : st'.skips = st.skips)
    (hph : ph2 = TaskPhase.finished false ∨ ∃ w, ph2 = TaskPhase.rateLimitSleep w)
    (hinv : keyInvariant queryData st) : keyInvariant queryData st' := by
  obtain ⟨hlen, hkey⟩ := hinv
  refine ⟨by rw [htasks, List.length_set]; exact hlen, ?_⟩
  intro j
  by_cases hij : i = j
  · subst hij
    have hrec : recordedAt queryData st'.result i := by
      intro q2 hq2
      rw [hq] at hq2
      injection hq2 with hq2
      subst hq2
      rw [hres, jsGet_jsSet_self]
      rfl
    refine ⟨fun _ => hrec, fun w _ => hrec, fun hfin => ?_⟩
    rw [htasks] at hfin
    rw [List.getElem?_set] at hfin
    rw [if_pos rfl] at hfin
    rcases hph with h2 | ⟨w, h2⟩ <;> subst h2 <;>
      split at hfin <;> simp_all
  · have htj : st'.tasks[j]? = st.tasks[j]? := by
      rw [htasks, List.getElem?_set_ne hij]
    refine ⟨?_, ?_, ?_⟩
    · intro hfin
      rw [htj] at hfin
      rw [hres]
      exact recordedAt_jsSet _ _ _ _ _ ((hkey j).1 hfin)
    · intro w hfin
      rw [htj] at hfin
      rw [hres]
      exact recordedAt_jsSet _ _ _ _ _ ((hkey j).2.1 w hfin)
    · intro hfin
      rw [htj] at hfin
      rw [hskips]
      exact (hkey j).2.2 hfin

theorem keyInvariant_set_neutral (queryData : List Query) (st st' : SessState)
    (i : Nat) (ph2 : TaskPhase)
    (hres : st'.result = st.result)
    (htasks : st'.tasks = st.tasks.set i ph2)
    (hskips : st'.skips = st.skips)
    (hph2 : (∀ b, ph2 ≠ TaskPhase.finished b) ∧ ∀ w, ph2 ≠ TaskPhase.rateLimitSleep w)
    (hinv : keyInvariant queryData st) : keyInvariant queryData st' := by
  obtain ⟨hlen, hkey⟩ := hinv
  refine ⟨by rw [htasks, List.length_set]; exact hlen, ?_⟩
  intro j
  by_cases hij : i = j
  · subst hij
    rw [htasks]
    rw [List.getElem?_set]
    rw [if_pos rfl]
    split
    · refine ⟨fun hfin => absurd (Option.some.inj hfin) (hph2.1 false), fun w hfin =>
        absurd (Option.some.inj hfin) (hph2.2 w), fun hfin =>
        absurd (Option.some.inj hfin) (hph2.1 true)⟩
    · exact ⟨fun hfin => Option.noConfusion hfin, fun w hfin => Option.noConfusion hfin,
        fun hfin => Option.noConfusion hfin⟩
  · have htj : st'.tasks[j]? = st.tasks[j]? := by
      rw [htasks, List.getElem?_set_ne hij]
    rw [htj, hres, hskips]
    exact hkey j

theorem keyInvariant_skip (queryData : List Query) (st st' : SessState) (i : Nat)
    (hres : st'.result = st.result)
    (htasks : st'.tasks = st.tasks.set i (TaskPhase.finished true))
    (hskips : st'.skips = st.skips ++ [i])
    (hinv : keyInvariant queryData st) : keyInvariant queryData st' := by
  obtain ⟨hlen, hkey⟩ := hinv
  refine ⟨by rw [htasks, List.length_set]; exact hlen, ?_⟩
  intro j
  by_cases hij : i = j
  · subst hij
    rw [htasks]
    rw [List.getElem?_set]
    rw [if_pos rfl]
    split
    · refine ⟨fun hfin => by simp at hfin, fun w hfin => by simp at hfin, fun _ => ?_⟩
      rw [hskips]
      exact List.mem_append_right _ (List.mem_singleton_self i)
    · exact ⟨fun hfin => Option.noConfusion hfin, fun w hfin => Option.noConfusion hfin,
        fun hfin => Option.noConfusion hfin⟩
  · have htj : st'.tasks[j]? = st.tasks[j]? := by
      rw [htasks, List.getElem?_set_ne hij]
    rw [htj, hres]
    refine ⟨(hkey j).1, (hkey j).2.1, fun hfin => ?_⟩
    rw [hskips]
    exact List.mem_append_left _ ((hkey j).2.2 hfin)

theorem keyInvariant_rldone (queryData : List Query) (st st' : SessState) (i : Nat)
    (w : Nat)
    (hrl : st.tasks[i]? = some (TaskPhase.rateLimitSleep w))
    (hres : st'.result = st.result)
    (htasks : st'.tasks = st.tasks.set i (TaskPhase.finished false))
    (hskips : st'.skips = st.skips)
    (hinv : keyInvariant queryData st) : keyInvariant queryData st' := by
  obtain ⟨hlen, hkey⟩ := hinv
  refine ⟨by rw [htasks, List.length_set]; exact hlen, ?_⟩
  intro j
  by_cases hij : i = j
  · subst hij
    have hrec : recordedAt queryData st'.result i := by
      rw [hres]
      exact (hkey i).2.1 w hrl
    rw [htasks]
    rw [List.getElem?_set]
    rw [if_pos rfl]
    refine ⟨fun _ => hrec, fun w2 hfin => ?_, fun hfin => ?_⟩
    · split at hfin
      · exact absurd (Option.some.inj hfin) (by simp)
      · exact Option.noConfusion hfin
    · split at hfin
      · exact absurd (Option.some.inj hfin) (by simp)
      · exact Option.noConfusion hfin
  · have htj : st'.tasks[j]? = st.tasks[j]? := by
      rw [htasks, List.getElem?_set_ne hij]
    rw [htj, hres, hskips]
    exact hkey j

theorem runAcquiredBody_keyInvariant (queryData : List Query) (q : Query)
    (msgsOpt : Option (List ChatMessage)) (st : SessState) (i : Nat)
    (hq : queryData[i]? = some q) (hinv : keyInvariant queryData st) :
    keyInvariant queryData (runAcquiredBody q msgsOpt st i) := by
  unfold runAcquiredBody
  rcases msgsOpt with _ | msgs
  · exact keyInvariant_write_finish queryData st _ i q _ _ hq rfl rfl rfl (Or.inl rfl) hinv
  · simp only
    split
    · exact keyInvariant_write_finish queryData st _ i q _ _ hq rfl rfl rfl (Or.inl rfl) hinv
    · exact keyInvariant_set_neutral queryData st _ i _ rfl rfl rfl
        ⟨fun b => by simp, fun w => by simp⟩ hinv

theorem runPollCheck_keyInvariant (queryData : List Query) (q : Query)
    (msgsOpt : Option (List ChatMessage)) (st : SessState) (i qs : Nat)
    (hq : queryData[i]? = some q) (hinv : keyInvariant queryData st) :
    keyInvariant queryData (runPollCheck q msgsOpt st i qs) := by
  unfold runPollCheck
  split
  · split
    · exact keyInvariant_skip queryData st _ i rfl rfl rfl hinv
    · exact keyInvariant_set_neutral queryData st _ i _ rfl rfl rfl
        ⟨fun b => by simp, fun w => by simp⟩ hinv
  · exact runAcquiredBody_keyInvariant queryData q msgsOpt _ i hq hinv

theorem runPacingDone_keyInvariant (queryData : List Query) (st : SessState) (i : Nat)
    (hinv : keyInvariant queryData st) : keyInvariant queryData (runPacingDone st i) := by
  unfold runPacingDone
  dsimp only
  split
  · exact keyInvariant_set_neutral queryData st _ i _ rfl rfl rfl
      ⟨fun b => by simp, fun w => by simp⟩ hinv
  · exact keyInvariant_set_neutral queryData st _ i _ rfl rfl rfl
      ⟨fun b => by simp, fun w => by simp⟩ hinv

theorem runCooldownDone_keyInvariant (queryData : List Query) (st : SessState) (i : Nat)
    (hinv : keyInvariant queryData st) : keyInvariant queryData (runCooldownDone st i) :=
  keyInvariant_set_neutral queryData st _ i _ rfl rfl rfl
    ⟨fun b => by simp, fun w => by simp⟩ hinv

theorem runResponse_keyInvariant (queryData : List Query) (q : Query) (st : SessState)
    (i : Nat) (o : ApiOutcome) (hq : queryData[i]? = some q)
    (hinv : keyInvariant queryData st) :
    keyInvariant queryData (runResponse q st i o) := by
  unfold runResponse
  split
  · exact keyInvariant_write_finish queryData st _ i q _ _ hq rfl rfl rfl (Or.inl rfl) hinv
  · split
    · exact keyInvariant_write_finish queryData st _ i q _ _ hq rfl rfl rfl
        (Or.inr ⟨_, rfl⟩) hinv
    · exact keyInvariant_write_finish queryData st _ i q _ _ hq rfl rfl rfl (Or.inl rfl) hinv

theorem stepDirective_keyInvariant (queryData : List Query)
    (msgsOpt : Option (List ChatMessage)) (st : SessState) (d : Directive)
    (hinv : keyInvariant queryData st) :
    keyInvariant queryData (stepDirective queryData msgsOpt st d) := by
  rcases d with dt | ⟨i, o⟩
  · exact hinv
  · simp only [stepDirective]
    split
    · rename_i ph q heq1 heq2
      split
      · exact runPollCheck_keyInvariant queryData q msgsOpt st i _ heq2 hinv
      · split
        · exact runPollCheck_keyInvariant queryData q msgsOpt st i _ heq2 hinv
        · exact hinv
      · split
        · exact runPacingDone_keyInvariant queryData st i hinv
        · exact hinv
      · split
        · exact runCooldownDone_keyInvariant queryData st i hinv
        · exact hinv
      · exact runResponse_keyInvariant queryData q st i o heq2 hinv
      · rename_i w
        split
        · exact keyInvariant_rldone queryData st _ i w heq1 rfl rfl rfl hinv
        · exact hinv
      · exact hinv
    · exact hinv

theorem foldl_keyInvariant (queryData : List Query) (msgsOpt : Option (List ChatMessage))
    (ds : List Directive) :
    ∀ st : SessState, keyInvariant queryData st →
      keyInvariant queryData (ds.foldl (stepDirective queryData msgsOpt) st) := by
  induction ds with
  | nil => exact fun st h => h
  | cons d rest ih =>
    intro st h
    exact ih _ (stepDirective_keyInvariant queryData msgsOpt st d h)

theorem runSession_keyInvariant (queryData : List Query)
    (msgsOpt : Option (List ChatMessage)) (record : SessionResult) (g : GlobalSt)
    (ds : List Directive) :
    keyInvariant queryData (runSession queryData msgsOpt record g ds) := by
  unfold runSession
  apply foldl_keyInvariant
  refine ⟨List.length_replicate _ _, fun i => ?_⟩
  rw [List.getElem?_replicate]
  split
  · exact ⟨fun h => by simp at h, fun w h => by simp at h, fun h => by simp at h⟩
  · exact ⟨fun h => Option.noConfusion h, fun w h => Option.noConfusion h,
      fun h => Option.noConfusion h⟩

theorem runSession_recorded (queryData : List Query) (msgsOpt : Option (List ChatMessage))
    (record : SessionResult) (g : GlobalSt) (ds : List Directive) (i : Nat) (q : Query)
    (hq : queryData[i]? = some q)
    (hcomplete : sessionComplete (runSession queryData msgsOpt record g ds) = true)
    (hskip : i ∉ (runSession queryData msgsOpt record g ds).skips) :
    (jsGet (runSession queryData msgsOpt record g ds).result q.queryName).isSome := by
  obtain ⟨hlen, hkey⟩ := runSession_keyInvariant queryData msgsOpt record g ds
  have hq' : i < queryData.length := (List.getElem?_eq_some.mp hq).1
  have hi : i < (runSession queryData msgsOpt record g ds).tasks.length := by
    rw [hlen]; exact hq'
  obtain ⟨ph, hph⟩ : ∃ ph, (runSession queryData msgsOpt record g ds).tasks[i]? = some ph :=
    ⟨_, List.getElem?_eq_some.mpr ⟨hi, rfl⟩⟩
  have hmem := mem_of_getElem?' hph
  unfold sessionComplete at hcomplete
  have hf := List.all_eq_true.mp hcomplete _ hmem
  cases ph with
  | finished b =>
    cases b with
    | true => exact absurd ((hkey i).2.2 hph) hskip
    | false => exact (hkey i).1 hph q hq
  | polling qs => simp at hf
  | pollSleeping qs w => simp at hf
  | pacingSleep w => simp at hf
  | cooldownSleep w => simp at hf
  | inFlight => simp at hf
  | rateLimitSleep w => simp at hf

/-- C1 (amended): once a session completes, every query whose task was not
skipped on the admission-timeout path has exactly one value recorded under its
queryName (a service answer, an extracted value, or an error placeholder) —
but a query skipped because no concurrency slot freed within the bounded wait
window is left with no entry at all, contrary to the original claim. -/
theorem claim_C1_amended (cd : List ChatMessage) (qd : List Query) (key : String)
    (oracle : List (List Directive)) (rs : List SessionResult) (fin : SessState)
    (k i : Nat) (q : Query)
    (hres : (processData cd qd key oracle).results = some rs)
    (hfin : (processData cd qd key oracle).sessions[k]? = some fin)
    (hq : qd[i]? = some q)
    (hskip : i ∉ fin.skips) :
    rs[k]? = some fin.result ∧ (jsGet fin.result q.queryName).isSome := by
  by_cases hemp : (cd.isEmpty || qd.isEmpty || key == "") = true
  · rw [processData_empty cd qd key oracle hemp] at hres
    exact absurd hres (by simp)
  · rw [processData_run cd qd key oracle (Bool.not_eq_true _ ▸ hemp)] at hres hfin
    simp only at hres hfin
    by_cases hdone : (runSessionsAux cd qd (jsKeyOrder (firstSeenIds cd)) oracle
        { clock := 0, activeRequests := 0, consecutive := 0, maxActive := 0 }).2 = true
    · rw [if_pos hdone] at hres
      injection hres with hres
      subst hres
      obtain ⟨hlen, hspec⟩ := runSessionsAux_spec cd qd _ oracle _ hdone
      have hk : k < (jsKeyOrder (firstSeenIds cd)).length := by
        have := (List.getElem?_eq_some.mp hfin).1
        omega
      obtain ⟨sid, hsid⟩ : ∃ sid, (jsKeyOrder (firstSeenIds cd))[k]? = some sid :=
        ⟨_, List.getElem?_eq_some.mpr ⟨hk, rfl⟩⟩
      obtain ⟨g2, ds, hfin2, hcomp⟩ := hspec k sid hsid
      rw [hfin2] at hfin
      injection hfin with hfin
      subst hfin
      constructor
      · rw [List.getElem?_map, hfin2]
        rfl
      · exact runSession_recorded qd _ _ g2 ds i q hq hcomp hskip
    · rw [if_neg hdone] at hres
      exact absurd hres (by simp)

/-- Witness for C1: on the concrete timeout run, the first (unskipped) query's
value is present in the completed record. -/
theorem claim_C1_witness :
    ((processData [c1Msg] c1Queries "k" c1Oracle).results.getD [])[0]? =
      some ((processData [c1Msg] c1Queries "k" c1Oracle).sessions.getD 0
        dummySessState).result ∧
    (jsGet ((processData [c1Msg] c1Queries "k" c1Oracle).sessions.getD 0
        dummySessState).result "Q1").isSome :=
  claim_C1_amended [c1Msg] c1Queries "k" c1Oracle
    ((processData [c1Msg] c1Queries "k" c1Oracle).results.getD [])
    ((processData [c1Msg] c1Queries "k" c1Oracle).sessions.getD 0 dummySessState)
    0 0 (c1Queries.getD 0 cexQuery)
    (by decide) (by decide) (by decide) (by decide)

/-- C1 counterexample: a completed run in which the fourth query timed out
waiting for a concurrency slot; contrary to the claim, its queryName "Q4" is
absent from the session's record (while the three dispatched queries have
values). -/
theorem claim_C1_counterexample :
    (processData [c1Msg] c1Queries "k" c1Oracle).completed = true ∧
    (processData [c1Msg] c1Queries "k" c1Oracle).results.map
        (fun rs => rs.map (fun r => jsGet r "Q4")) = some [none] ∧
    (processData [c1Msg] c1Queries "k" c1Oracle).results.map
        (fun rs => rs.map (fun r => jsGet r "Q1")) = some [some "A"] ∧
    ((processData [c1Msg] c1Queries "k" c1Oracle).sessions.getD 0
        dummySessState).skips = [3] := by
  decide

/-! ## Direct-extraction tasks never reach the remote-call path -/

theorem nodup_getElem?_ne {α : Type} : ∀ {l : List α}, l.Nodup →
    ∀ {i j : Nat} {a b : α}, i ≠ j → l[i]? = some a → l[j]? = some b → a ≠ b := by
  intro l
  induction l with
  | nil =>
    intro _ i j a b _ ha _
    simp at ha
  | cons x t ih =>
    intro hnd i j a b hij ha hb
    rcases List.nodup_cons.mp hnd with ⟨hx, ht⟩
    cases i with
    | zero =>
      cases j with
      | zero => exact absurd rfl hij
      | succ j2 =>
        rw [List.getElem?_cons_zero] at ha
        rw [List.getElem?_cons_succ] at hb
        injection ha with ha
        subst ha
        intro hab
        exact hx (hab ▸ mem_of_getElem?' hb)
    | succ i2 =>
      cases j with
      | zero =>
        rw [List.getElem?_cons_succ] at ha
        rw [List.getElem?_cons_zero] at hb
        injection hb with hb
        subst hb
        intro hab
        exact hx (hab ▸ mem_of_getElem?' ha)
      | succ j2 =>
        rw [List.getElem?_cons_succ] at ha hb
        exact ih ht (fun h => hij (by omega)) ha hb

theorem directOnlyInv_other (q0 : Query) (i0 : Nat) (v0 : String) (st st' : SessState)
    (j : Nat) (ph2 : TaskPhase)
    (hij : j ≠ i0)
    (htasks : st'.tasks = st.tasks.set j ph2)
    (hcalls : st'.calls = st.calls ∨ st'.calls = st.calls ++ [j])
    (hskips : st'.skips = st.skips ∨ st'.skips = st.skips ++ [j])
    (hres : jsGet st'.result q0.queryName = jsGet st.result q0.queryName)
    (hinv : directOnlyInv q0 i0 v0 st) : directOnlyInv q0 i0 v0 st' := by
  obtain ⟨hc, hp1, hp2, hp3, hp4, hsk, hval⟩ := hinv
  have htj : st'.tasks[i0]? = st.tasks[i0]? := by
    rw [htasks, List.getElem?_set_ne hij]
  refine ⟨?_, ?_, ?_, ?_, ?_, ?_, ?_⟩
  · rcases hcalls with h | h <;> rw [h]
    · exact hc
    · intro hmem
      rcases List.mem_append.mp hmem with h2 | h2
      · exact hc h2
      · exact hij (List.mem_singleton.mp h2).symm
  · intro w; rw [htj]; exact hp1 w
  · intro w; rw [htj]; exact hp2 w
  · rw [htj]; exact hp3
  · intro w; rw [htj]; exact hp4 w
  · intro hfin
    rw [htj] at hfin
    rcases hskips with h | h <;> rw [h]
    · exact hsk hfin
    · exact List.mem_append_left _ (hsk hfin)
  · intro hfin
    rw [htj] at hfin
    rw [hres]
    exact hval hfin

theorem runAcquiredBody_directOnlyInv_other (q0 q : Query)
    (i0 : Nat) (v0 : String) (msgsOpt : Option (List ChatMessage)) (st : SessState)
    (j : Nat) (hij : j ≠ i0) (hqname : q.queryName ≠ q0.queryName)
    (hinv : directOnlyInv q0 i0 v0 st) :
    directOnlyInv q0 i0 v0 (runAcquiredBody q msgsOpt st j) := by
  unfold runAcquiredBody
  rcases msgsOpt with _ | msgs
  · exact directOnlyInv_other q0 i0 v0 st _ j _ hij rfl (Or.inl rfl) (Or.inl rfl)
      (jsGet_jsSet_ne _ _ _ _ hqname) hinv
  · simp only
    split
    · exact directOnlyInv_other q0 i0 v0 st _ j _ hij rfl (Or.inl rfl) (Or.inl rfl)
        (jsGet_jsSet_ne _ _ _ _ hqname) hinv
    · exact directOnlyInv_other q0 i0 v0 st _ j _ hij rfl (Or.inl rfl) (Or.inl rfl) rfl hinv

theorem runPollCheck_directOnlyInv_other (q0 q : Query)
    (i0 : Nat) (v0 : String) (msgsOpt : Option (List ChatMessage)) (st : SessState)
    (j qs : Nat) (hij : j ≠ i0) (hqname : q.queryName ≠ q0.queryName)
    (hinv : directOnlyInv q0 i0 v0 st) :
    directOnlyInv q0 i0 v0 (runPollCheck q msgsOpt st j qs) := by
  unfold runPollCheck
  split
  · split
    · exact directOnlyInv_other q0 i0 v0 st _ j _ hij rfl (Or.inl rfl) (Or.inr rfl) rfl hinv
    · exact directOnlyInv_other q0 i0 v0 st _ j _ hij rfl (Or.inl rfl) (Or.inl rfl) rfl hinv
  · exact runAcquiredBody_directOnlyInv_other q0 q i0 v0 msgsOpt _ j hij hqname hinv

theorem runResponse_directOnlyInv_other (q0 q : Query) (i0 : Nat) (v0 : String)
    (st : SessState) (j : Nat) (o : ApiOutcome) (hij : j ≠ i0)
    (hqname : q.queryName ≠ q0.queryName) (hinv : directOnlyInv q0 i0 v0 st) :
    directOnlyInv q0 i0 v0 (runResponse q st j o) := by
  unfold runResponse
  split
  · exact directOnlyInv_other q0 i0 v0 st _ j _ hij rfl (Or.inl rfl) (Or.inl rfl)
      (jsGet_jsSet_ne _ _ _ _ hqname) hinv
  · split
    · exact directOnlyInv_other q0 i0 v0 st _ j _ hij rfl (Or.inl rfl) (Or.inl rfl)
        (jsGet_jsSet_ne _ _ _ _ hqname) hinv
    · exact directOnlyInv_other q0 i0 v0 st _ j _ hij rfl (Or.inl rfl) (Or.inl rfl)
        (jsGet_jsSet_ne _ _ _ _ hqname) hinv

theorem getElem?_set_self_cases {α : Type} (l : List α) (i : Nat) (a : α) :
    (l.set i a)[i]? = some a ∨ (l.set i a)[i]? = none := by
  rw [List.getElem?_set, if_pos rfl]
  split
  · exact Or.inl rfl
  · exact Or.inr rfl

theorem runPollCheck_directOnlyInv_self (q0 : Query) (i0 : Nat) (v0 : String)
    (msgs : List ChatMessage) (st : SessState) (qs : Nat)
    (hhit : isColumnExtractionQuery q0 = true)
    (hcol : extractColumnName q0 ≠ "")
    (hdir : tryDirectColumnExtraction (extractColumnName q0) msgs = some v0)
    (hinv : directOnlyInv q0 i0 v0 st) :
    directOnlyInv q0 i0 v0 (runPollCheck q0 (some msgs) st i0 qs) := by
  obtain ⟨hc, hp1, hp2, hp3, hp4, hsk, hval⟩ := hinv
  unfold runPollCheck
  split
  · split
    · -- timeout: the task is skipped and recorded in `skips`
      rcases getElem?_set_self_cases st.tasks i0 (TaskPhase.finished true) with h | h
      · exact ⟨hc, fun w hcontra => by rw [h] at hcontra; simp at hcontra,
          fun w hcontra => by rw [h] at hcontra; simp at hcontra,
          fun hcontra => by rw [h] at hcontra; simp at hcontra,
          fun w hcontra => by rw [h] at hcontra; simp at hcontra,
          fun _ => List.mem_append_right _ (List.mem_singleton_self i0),
          fun hcontra => by rw [h] at hcontra; simp at hcontra⟩
      · exact ⟨hc, fun w hcontra => by rw [h] at hcontra; simp at hcontra,
          fun w hcontra => by rw [h] at hcontra; simp at hcontra,
          fun hcontra => by rw [h] at hcontra; simp at hcontra,
          fun w hcontra => by rw [h] at hcontra; simp at hcontra,
          fun _ => List.mem_append_right _ (List.mem_singleton_self i0),
          fun hcontra => by rw [h] at hcontra; simp at hcontra⟩
    · -- keep polling
      rcases getElem?_set_self_cases st.tasks i0 (TaskPhase.pollSleeping qs (st.clock + 100))
        with h | h <;>
        exact ⟨hc, fun w hcontra => by rw [h] at hcontra; simp at hcontra,
          fun w hcontra => by rw [h] at hcontra; simp at hcontra,
          fun hcontra => by rw [h] at hcontra; simp at hcontra,
          fun w hcontra => by rw [h] at hcontra; simp at hcontra,
          fun hcontra => by rw [h] at hcontra; simp at hcontra,
          fun hcontra => by rw [h] at hcontra; simp at hcontra⟩
  · -- slot acquired: the resolver hit resolves the query synchronously
    unfold runAcquiredBody
    simp only
    rw [hhit]
    simp only [if_true]
    rw [if_pos (bne_iff_ne.mpr hcol : (extractColumnName q0 != "") = true)]
    rw [hdir]
    simp only
    rcases getElem?_set_self_cases st.tasks i0 (TaskPhase.finished false) with h | h <;>
      exact ⟨hc, fun w hcontra => by rw [h] at hcontra; simp at hcontra,
        fun w hcontra => by rw [h] at hcontra; simp at hcontra,
        fun hcontra => by rw [h] at hcontra; simp at hcontra,
        fun w hcontra => by rw [h] at hcontra; simp at hcontra,
        fun hcontra => by rw [h] at hcontra; simp at hcontra,
        fun _ => jsGet_jsSet_self st.result q0.queryName v0⟩

theorem runPacingDone_directOnlyInv_other (q0 : Query) (i0 : Nat) (v0 : String)
    (st : SessState) (j : Nat) (hij : j ≠ i0) (hinv : directOnlyInv q0 i0 v0 st) :
    directOnlyInv q0 i0 v0 (runPacingDone st j) := by
  unfold runPacingDone
  dsimp only
  split
  · exact directOnlyInv_other q0 i0 v0 st _ j _ hij rfl (Or.inl rfl) (Or.inl rfl) rfl hinv
  · exact directOnlyInv_other q0 i0 v0 st _ j _ hij rfl (Or.inr rfl) (Or.inl rfl) rfl hinv

theorem runCooldownDone_directOnlyInv_other (q0 : Query) (i0 : Nat) (v0 : String)
    (st : SessState) (j : Nat) (hij : j ≠ i0) (hinv : directOnlyInv q0 i0 v0 st) :
    directOnlyInv q0 i0 v0 (runCooldownDone st j) :=
  directOnlyInv_other q0 i0 v0 st _ j _ hij rfl (Or.inr rfl) (Or.inl rfl) rfl hinv

theorem runRateLimitDone_directOnlyInv_other (q0 : Query) (i0 : Nat) (v0 : String)
    (st : SessState) (j : Nat) (hij : j ≠ i0) (hinv : directOnlyInv q0 i0 v0 st) :
    directOnlyInv q0 i0 v0 (runRateLimitDone st j) :=
  directOnlyInv_other q0 i0 v0 st _ j _ hij rfl (Or.inl rfl) (Or.inl rfl) rfl hinv

theorem stepDirective_directOnlyInv (queryData : List Query) (msgs : List ChatMessage)
    (st : SessState) (d : Directive) (q0 : Query) (i0 : Nat) (v0 : String)
    (hq0 : queryData[i0]? = some q0)
    (hname : ∀ (j : Nat) (q2 : Query), queryData[j]? = some q2 → j ≠ i0 →
      q2.queryName ≠ q0.queryName)
    (hhit : isColumnExtractionQuery q0 = true)
    (hcol : extractColumnName q0 ≠ "")
    (hdir : tryDirectColumnExtraction (extractColumnName q0) msgs = some v0)
    (hinv : directOnlyInv q0 i0 v0 st) :
    directOnlyInv q0 i0 v0 (stepDirective queryData (some msgs) st d) := by
  rcases d with dt | ⟨j, o⟩
  · exact hinv
  · simp only [stepDirective]
    split
    · rename_i ph q heq1 heq2
      by_cases hij : j = i0
      · subst hij
        have hq : q = q0 := by
          rw [hq0] at heq2
          exact (Option.some.inj heq2).symm
        subst hq
        split
        · exact runPollCheck_directOnlyInv_self q j v0 msgs st _ hhit hcol hdir hinv
        · split
          · exact runPollCheck_directOnlyInv_self q j v0 msgs st _ hhit hcol hdir hinv
          · exact hinv
        · rename_i w
          exact absurd heq1 (hinv.2.1 w)
        · rename_i w
          exact absurd heq1 (hinv.2.2.1 w)
        · exact absurd heq1 hinv.2.2.2.1
        · rename_i w
          exact absurd heq1 (hinv.2.2.2.2.1 w)
        · exact hinv
      · have hqname := hname j q heq2 hij
        split
        · exact runPollCheck_directOnlyInv_other q0 q i0 v0 (some msgs) st j _ hij hqname hinv
        · split
          · exact runPollCheck_directOnlyInv_other q0 q i0 v0 (some msgs) st j _ hij hqname hinv
          · exact hinv
        · split
          · exact runPacingDone_directOnlyInv_other q0 i0 v0 st j hij hinv
          · exact hinv
        · split
          · exact runCooldownDone_directOnlyInv_other q0 i0 v0 st j hij hinv
          · exact hinv
        · exact runResponse_directOnlyInv_other q0 q i0 v0 st j o hij hqname hinv
        · split
          · exact runRateLimitDone_directOnlyInv_other q0 i0 v0 st j hij hinv
          · exact hinv
        · exact hinv
    · exact hinv

theorem foldl_directOnlyInv (queryData : List Query) (msgs : List ChatMessage)
    (ds : List Directive) (q0 : Query) (i0 : Nat) (v0 : String)
    (hq0 : queryData[i0]? = some q0)
    (hname : ∀ (j : Nat) (q2 : Query), queryData[j]? = some q2 → j ≠ i0 →
      q2.queryName ≠ q0.queryName)
    (hhit : isColumnExtractionQuery q0 = true)
    (hcol : extractColumnName q0 ≠ "")
    (hdir : tryDirectColumnExtraction (extractColumnName q0) msgs = some v0) :
    ∀ st : SessState, directOnlyInv q0 i0 v0 st →
      directOnlyInv q0 i0 v0 (ds.foldl (stepDirective queryData (some msgs)) st) := by
  induction ds with
  | nil => exact fun st h => h
  | cons d rest ih =>
    intro st h
    exact ih _ (stepDirective_directOnlyInv queryData msgs st d q0 i0 v0 hq0 hname hhit
      hcol hdir h)

theorem runSession_directOnly (queryData : List Query) (msgs : List ChatMessage)
    (record : SessionResult) (g : GlobalSt) (ds : List Directive) (q0 : Query)
    (i0 : Nat) (v0 : String)
    (hq0 : queryData[i0]? = some q0)
    (hname : ∀ (j : Nat) (q2 : Query), queryData[j]? = some q2 → j ≠ i0 →
      q2.queryName ≠ q0.queryName)
    (hhit : isColumnExtractionQuery q0 = true)
    (hcol : extractColumnName q0 ≠ "")
    (hdir : tryDirectColumnExtraction (extractColumnName q0) msgs = some v0)
    (hcomplete : sessionComplete (runSession queryData (some msgs) record g ds) = true)
    (hskip : i0 ∉ (runSession queryData (some msgs) record g ds).skips) :
    jsGet (runSession queryData (some msgs) record g ds).result q0.queryName = some v0 ∧
    i0 ∉ (runSession queryData (some msgs) record g ds).calls := by
  have hinv : directOnlyInv q0 i0 v0 (runSession queryData (some msgs) record g ds) := by
    unfold runSession
    apply foldl_directOnlyInv queryData msgs _ q0 i0 v0 hq0 hname hhit hcol hdir
    refine ⟨by simp, ?_, ?_, ?_, ?_, ?_, ?_⟩ <;>
      rw [List.getElem?_replicate]
    · intro w h
      split at h
      · exact absurd (Option.some.inj h) (by simp)
      · exact Option.noConfusion h
    · intro w h
      split at h
      · exact absurd (Option.some.inj h) (by simp)
      · exact Option.noConfusion h
    · intro h
      split at h
      · exact absurd (Option.some.inj h) (by simp)
      · exact Option.noConfusion h
    · intro w h
      split at h
      · exact absurd (Option.some.inj h) (by simp)
      · exact Option.noConfusion h
    · intro h
      split at h
      · exact absurd (Option.some.inj h) (by simp)
      · exact Option.noConfusion h
    · intro h
      split at h
      · exact absurd (Option.some.inj h) (by simp)
      · exact Option.noConfusion h
  have hlen := (runSession_keyInvariant queryData (some msgs) record g ds).1
  have hq' : i0 < queryData.length := (List.getElem?_eq_some.mp hq0).1
  have hi : i0 < (runSession queryData (some msgs) record g ds).tasks.length := by
    rw [hlen]; exact hq'
  obtain ⟨ph, hph⟩ :
      ∃ ph, (runSession queryData (some msgs) record g ds).tasks[i0]? = some ph :=
    ⟨_, List.getElem?_eq_some.mpr ⟨hi, rfl⟩⟩
  have hmem := mem_of_getElem?' hph
  unfold sessionComplete at hcomplete
  have hf := List.all_eq_true.mp hcomplete _ hmem
  cases ph with
  | finished b =>
    cases b with
    | true => exact absurd (hinv.2.2.2.2.2.1 hph) hskip
    | false => exact ⟨hinv.2.2.2.2.2.2 hph, hinv.1⟩
  | polling qs => simp at hf
  | pollSleeping qs w => simp at hf
  | pacingSleep w => simp at hf
  | cooldownSleep w => simp at hf
  | inFlight => simp at hf
  | rateLimitSleep w => simp at hf

theorem tryDirect_fallback_spec (c : String) (msgs : List ChatMessage) (v : String)
    (h : (if c == "participant identifier" then
        match firstNonBlank (fun m => some m.participantIdentifier) msgs with
        | some w => some (sanitizeString w)
        | none => none
      else none) = some v) :
    c = "participant identifier" ∧
      ∃ w, firstNonBlank (fun m => some m.participantIdentifier) msgs = some w ∧
        v = sanitizeString w := by
  by_cases hc : (c == "participant identifier") = true
  · rw [if_pos hc] at h
    refine ⟨by simpa using hc, ?_⟩
    cases hf : firstNonBlank (fun m => some m.participantIdentifier) msgs with
    | some w =>
      rw [hf] at h
      exact ⟨w, rfl, (Option.some.inj h).symm⟩
    | none =>
      rw [hf] at h
      exact absurd h (by simp)
  · rw [if_neg hc] at h
    exact absurd h (by simp)

theorem tryDirect_spec (c : String) (msgs : List ChatMessage) (v : String)
    (h : tryDirectColumnExtraction c msgs = some v) :
    ∃ m0 rest, msgs = m0 :: rest ∧
      ((∃ kk w, (ChatMessage.keys m0).find? (fun x => jsToLower x == jsToLower c) = some kk ∧
          kk ≠ "" ∧ firstNonBlank (fun m => m.get kk) (m0 :: rest) = some w ∧
          v = sanitizeString w) ∨
       (c = "participant identifier" ∧
        ∃ w, firstNonBlank (fun m => some m.participantIdentifier) (m0 :: rest) = some w ∧
          v = sanitizeString w)) := by
  cases msgs with
  | nil => exact absurd h (by simp [tryDirectColumnExtraction])
  | cons m0 rest =>
    refine ⟨m0, rest, rfl, ?_⟩
    unfold tryDirectColumnExtraction at h
    simp only at h
    cases hfind : (ChatMessage.keys m0).find? (fun x => jsToLower x == jsToLower c) with
    | none =>
      rw [hfind] at h
      dsimp only at h
      exact Or.inr (tryDirect_fallback_spec c (m0 :: rest) v h)
    | some kk =>
      rw [hfind] at h
      dsimp only at h
      by_cases hkk : (kk != "") = true
      · rw [if_pos hkk] at h
        cases hf : firstNonBlank (fun m => m.get kk) (m0 :: rest) with
        | some w =>
          rw [hf] at h
          dsimp only at h
          exact Or.inl ⟨kk, w, rfl, bne_iff_ne.mp hkk, hf, (Option.some.inj h).symm⟩
        | none =>
          rw [hf] at h
          dsimp only at h
          exact Or.inr (tryDirect_fallback_spec c (m0 :: rest) v h)
      · rw [if_neg hkk] at h
        dsimp only at h
        exact Or.inr (tryDirect_fallback_spec c (m0 :: rest) v h)

theorem groupLookup_mem (cd : List ChatMessage) (sid : String)
    (h : sid ∈ firstSeenIds cd) :
    groupLookup cd sid = some (sessionMessagesFor cd sid) := by
  unfold groupLookup
  rw [if_pos (show (firstSeenIds cd).contains sid = true from List.elem_iff.mpr h)]

/-- C3 (amended): for every completed run, every (session, query) pair on which
the Direct-Extraction Resolver matches and that was not skipped on the
admission-timeout path — provided the session's raw id is left unchanged by
sanitization, since the loop looks the group up by the sanitized id and a
collision hands the task another session's messages — stores, under that
query's name, `sanitizeString` of the first value of the matched field that is
non-blank after trimming, scanning the session's messages in original order
(the matched field being the first key of the first message matching the
extracted column name case-insensitively, or the `participantIdentifier`
fallback) — and no remote completion call is dispatched for that pair. -/
theorem claim_C3_amended (cd : List ChatMessage) (qd : List Query) (key : String)
    (oracle : List (List Directive)) (rs : List SessionResult) (fin : SessState)
    (k i : Nat) (sid : String) (q : Query) (v : String)
    (hres : (processData cd qd key oracle).results = some rs)
    (hfin : (processData cd qd key oracle).sessions[k]? = some fin)
    (hsid : (jsKeyOrder (firstSeenIds cd))[k]? = some sid)
    (hsan : sanitizeString sid = sid)
    (hnodup : (queryNames qd).Nodup)
    (hq : qd[i]? = some q)
    (hhit : isColumnExtractionQuery q = true)
    (hcol : extractColumnName q ≠ "")
    (hdir : tryDirectColumnExtraction (extractColumnName q)
      (sessionMessagesFor cd sid) = some v)
    (hskip : i ∉ fin.skips) :
    rs[k]? = some fin.result ∧
    jsGet fin.result q.queryName = some v ∧
    i ∉ fin.calls ∧
    (∃ m0 rest, sessionMessagesFor cd sid = m0 :: rest ∧
      ((∃ kk w, (ChatMessage.keys m0).find?
          (fun x => jsToLower x == jsToLower (extractColumnName q)) = some kk ∧
          kk ≠ "" ∧ firstNonBlank (fun m => m.get kk) (m0 :: rest) = some w ∧
          v = sanitizeString w) ∨
       (extractColumnName q = "participant identifier" ∧
        ∃ w, firstNonBlank (fun m => some m.participantIdentifier) (m0 :: rest) = some w ∧
          v = sanitizeString w))) := by
  have hname : ∀ (j : Nat) (q2 : Query), qd[j]? = some q2 → j ≠ i →
      q2.queryName ≠ q.queryName := by
    intro j q2 hj hne
    have hj2 : (queryNames qd)[j]? = some q2.queryName := by
      unfold queryNames
      rw [List.getElem?_map, hj]
      rfl
    have hi2 : (queryNames qd)[i]? = some q.queryName := by
      unfold queryNames
      rw [List.getElem?_map, hq]
      rfl
    exact nodup_getElem?_ne hnodup hne hj2 hi2
  by_cases hemp : (cd.isEmpty || qd.isEmpty || key == "") = true
  · rw [processData_empty cd qd key oracle hemp] at hres
    exact absurd hres (by simp)
  · rw [processData_run cd qd key oracle (Bool.not_eq_true _ ▸ hemp)] at hres hfin
    simp only at hres hfin
    by_cases hdone : (runSessionsAux cd qd (jsKeyOrder (firstSeenIds cd)) oracle
        { clock := 0, activeRequests := 0, consecutive := 0, maxActive := 0 }).2 = true
    · rw [if_pos hdone] at hres
      injection hres with hres
      subst hres
      obtain ⟨hlen, hspec⟩ := runSessionsAux_spec cd qd _ oracle _ hdone
      obtain ⟨g2, ds, hfin2, hcomp⟩ := hspec k sid hsid
      have hlook : groupLookup cd (sanitizeString sid) =
          some (sessionMessagesFor cd sid) := by
        rw [hsan]
        exact groupLookup_mem cd sid
          ((jsKeyOrder_perm (firstSeenIds cd)).mem_iff.mp (mem_of_getElem?' hsid))
      rw [hlook] at hfin2 hcomp
      rw [hfin2] at hfin
      injection hfin with hfin
      subst hfin
      obtain ⟨hval, hcalls⟩ := runSession_directOnly qd (sessionMessagesFor cd sid)
        (baseRecord cd sid) g2 ds q i v hq hname hhit hcol hdir hcomp hskip
      exact ⟨by rw [List.getElem?_map, hfin2]; rfl, hval, hcalls,
        tryDirect_spec (extractColumnName q) (sessionMessagesFor cd sid) v hdir⟩
    · rw [if_neg hdone] at hres
      exact absurd hres (by simp)

/-- Witness for C3: the resolver hit on the open column "code" stores the
extracted value and never dispatches a remote call, on a concrete run. -/
theorem claim_C3_witness :
    ((processData [c3CleanMsg] [c3Query] "k" [[]]).results.getD [])[0]? =
      some ((processData [c3CleanMsg] [c3Query] "k" [[]]).sessions.getD 0
        dummySessState).result ∧
    jsGet ((processData [c3CleanMsg] [c3Query] "k" [[]]).sessions.getD 0
        dummySessState).result c3Query.queryName = some "ab12" ∧
    0 ∉ ((processData [c3CleanMsg] [c3Query] "k" [[]]).sessions.getD 0
        dummySessState).calls ∧
    (∃ m0 rest, sessionMessagesFor [c3CleanMsg] "s" = m0 :: rest ∧
      ((∃ kk w, (ChatMessage.keys m0).find?
          (fun x => jsToLower x == jsToLower (extractColumnName c3Query)) = some kk ∧
          kk ≠ "" ∧ firstNonBlank (fun m => m.get kk) (m0 :: rest) = some w ∧
          ("ab12" : String) = sanitizeString w) ∨
       (extractColumnName c3Query = "participant identifier" ∧
        ∃ w, firstNonBlank (fun m => some m.participantIdentifier) (m0 :: rest) = some w ∧
          ("ab12" : String) = sanitizeString w))) :=
  claim_C3_amended [c3CleanMsg] [c3Query] "k" [[]]
    ((processData [c3CleanMsg] [c3Query] "k" [[]]).results.getD [])
    ((processData [c3CleanMsg] [c3Query] "k" [[]]).sessions.getD 0 dummySessState)
    0 0 "s" c3Query "ab12"
    (by decide) (by decide) (by decide) (by decide) (by decide) (by decide) (by decide)
    (by decide) (by decide) (by decide)

/-- C3 counterexample, refuting the original claim on two code paths: first,
the stored answer is the sanitized field value, not the raw first non-empty
value (a control character is removed before storage); second, when two raw
session ids sanitize to the same string, the loop's group lookup by sanitized
id hands the second session the first session's messages, so the resolver
matches yet stores the other session's "code" value ("w") instead of the first
non-empty value of that session's own messages ("v"). -/
theorem claim_C3_counterexample :
    (processData [c3Msg] [c3Query] "k" [[]]).results.map
        (fun rs => rs.map (fun r => jsGet r "Code")) = some [some "xy"] ∧
    firstNonBlank (fun m => m.get "code") (sessionMessagesFor [c3Msg] "s") =
      some "x\x01y" ∧
    (some "xy" : Option String) ≠ some "x\x01y" ∧
    (processData c3CollideMsgs [c3Query] "k" [[]]).results.map
        (fun rs => rs.map (fun r => jsGet r "Code")) = some [some "w", some "w"] ∧
    isColumnExtractionQuery c3Query = true ∧
    extractColumnName c3Query = "code" ∧
    (tryDirectColumnExtraction (extractColumnName c3Query)
      (sessionMessagesFor c3CollideMsgs "a\x01")).isSome = true ∧
    firstNonBlank (fun m => m.get "code")
      (sessionMessagesFor c3CollideMsgs "a\x01") = some "v" ∧
    sanitizeString "v" = "v" ∧
    (some "w" : Option String) ≠ some "v" := by
  decide

/-- C6 (amended): for a query whose description asks to extract the column
"participant identifier" (and whose first message has no field key matching
that name, which would take precedence), the resolver's outcome is exactly the
sanitized first `participantIdentifier` value that is non-blank after trimming
— and when no such value exists the resolver reports "no match" and the pair
falls through to the remote-call path. -/
theorem claim_C6_amended (q : Query) (m0 : ChatMessage) (rest : List ChatMessage)
    (hdesc : strIncludes (jsToLower q.queryDescription) "extract column" = true)
    (hcol : extractColumnName q = "participant identifier")
    (hnoshadow : (ChatMessage.keys m0).find?
      (fun x => jsToLower x == jsToLower (extractColumnName q)) = none) :
    isColumnExtractionQuery q = true ∧
    tryDirectColumnExtraction (extractColumnName q) (m0 :: rest) =
      (firstNonBlank (fun m => some m.participantIdentifier) (m0 :: rest)).map
        sanitizeString := by
  constructor
  · unfold isColumnExtractionQuery
    simp [hdesc]
  · unfold tryDirectColumnExtraction
    simp only
    rw [hnoshadow]
    dsimp only
    rw [hcol]
    rw [if_pos (by simp)]
    cases hf : firstNonBlank (fun m => some m.participantIdentifier) (m0 :: rest) with
    | some w => simp
    | none => simp

/-- Witness for C6: a concrete query and message list on which the amended
equivalence holds with a populated `participantIdentifier`. -/
theorem claim_C6_witness :
    isColumnExtractionQuery c6Query = true ∧
    tryDirectColumnExtraction (extractColumnName c6Query) [c6MsgPlain] =
      (firstNonBlank (fun m => some m.participantIdentifier) [c6MsgPlain]).map
        sanitizeString :=
  claim_C6_amended c6Query c6MsgPlain [] (by decide) (by decide) (by decide)

/-- C6 counterexample: when a message carries an open column literally named
"participant identifier", the direct key match takes precedence and the stored
output is that column's value, not the first non-empty `participantIdentifier`
field value the claim states. -/
theorem claim_C6_counterexample :
    extractColumnName c6Query = "participant identifier" ∧
    isColumnExtractionQuery c6Query = true ∧
    tryDirectColumnExtraction (extractColumnName c6Query) [c6MsgShadow] = some "AAA" ∧
    firstNonBlank (fun m => some m.participantIdentifier) [c6MsgShadow] = some "BBB" ∧
    sanitizeString "BBB" = "BBB" ∧
    (some "AAA" : Option String) ≠ some "BBB" := by
  decide
